import Mathlib

/-!
Verification of the claude-code-memory transcript-to-memory pipeline.

This file is a shallow embedding of the JavaScript sources
`plugin/scripts/save-memory.js`, `plugin/scripts/synthesize-memory.js` and the
AI-marker SessionEnd hook variant, together with proofs about the embedded
functions.  JavaScript strings are modelled as Lean `String` (a list of
characters); all string primitives used by the code (`trim`, `toLowerCase`,
`includes`, `slice`, `Buffer.byteLength`, `join`, `split`, `indexOf`, …) are
defined below on the character-list representation so that they are fully
executable by the kernel.
-/

namespace Js

/-- Model of the UTF-8 byte width of one character, as used by
`Buffer.byteLength` for well-formed (non-surrogate) code points. -/
def charBytes (c : Char) : Nat :=
  if c.toNat < 0x80 then 1
  else if c.toNat < 0x800 then 2
  else if c.toNat < 0x10000 then 3
  else 4

/-- UTF-8 byte length of a character list. -/
def utf8LenL : List Char → Nat
  | [] => 0
  | c :: cs => charBytes c + utf8LenL cs

/-- Model of `Buffer.byteLength(s)` for a JS string. -/
def byteLen (s : String) : Nat := utf8LenL s.data

/-- Model of the JS `s.length` property (code units; code points for BMP text). -/
def jsLength (s : String) : Nat := s.data.length

/-- The whitespace class trimmed by JS `String.prototype.trim`. -/
def isJsSpace (c : Char) : Bool :=
  c == ' ' || c == '\t' || c == '\n' || c == '\r' || c == '\x0B' || c == '\x0C'

/-- Model of `s.trim()`. -/
def jsTrim (s : String) : String :=
  String.mk (((s.data.dropWhile isJsSpace).reverse.dropWhile isJsSpace).reverse)

/-- Model of `s.toLowerCase()` (character-wise lowering; exact on ASCII). -/
def jsToLower (s : String) : String := String.mk (s.data.map Char.toLower)

/-- Boolean prefix test on character lists. -/
def isPrefixL : List Char → List Char → Bool
  | [], _ => true
  | _ :: _, [] => false
  | a :: as, b :: bs => a == b && isPrefixL as bs

/-- Boolean contiguous-substring test on character lists. -/
def isInfixL (pat : List Char) : List Char → Bool
  | [] => isPrefixL pat []
  | b :: bs => isPrefixL pat (b :: bs) || isInfixL pat bs

/-- Model of `s.includes(sub)`. -/
def jsIncludes (s sub : String) : Bool := isInfixL sub.data s.data

/-- Model of `s.startsWith(pre)`. -/
def jsStartsWith (s pre : String) : Bool := isPrefixL pre.data s.data

/-- Model of `s.endsWith(post)`. -/
def jsEndsWith (s post : String) : Bool := isPrefixL post.data.reverse s.data.reverse

/-- Model of `arr.join(sep)` for an array of strings. -/
def jsJoin (sep : String) : List String → String
  | [] => ""
  | [x] => x
  | x :: y :: xs => x ++ sep ++ jsJoin sep (y :: xs)

/-- Model of `s.slice(0, n)` / `s.substring(0, n)`. -/
def jsTake (s : String) (n : Nat) : String := String.mk (s.data.take n)

/-- Model of `s.substring(a, b)` for `a ≤ b`. -/
def jsSubstring (s : String) (a b : Nat) : String :=
  String.mk ((s.data.take b).drop a)

/-- Model of `s.indexOf(c)` for a single-character needle, `none` for `-1`. -/
def jsIndexOfChar (s : String) (c : Char) : Option Nat :=
  s.data.findIdx? (· == c)

/-- Model of `s.lastIndexOf(c)` for a single-character needle, `none` for `-1`. -/
def jsLastIndexOfChar (s : String) (c : Char) : Option Nat :=
  (s.data.reverse.findIdx? (· == c)).map (fun i => s.data.length - 1 - i)

/-- Splitting on maximal runs of separator characters, as JS
`s.split(/[…]+/)` does for a one-character-class regex. -/
def splitRuns (p : Char → Bool) : List Char → List (List Char)
  | [] => [[]]
  | c :: cs =>
    if p c then
      match cs with
      | [] => [] :: splitRuns p []
      | c2 :: cs2 =>
        if p c2 then splitRuns p (c2 :: cs2)
        else [] :: splitRuns p (c2 :: cs2)
    else
      match splitRuns p cs with
      | [] => [[c]]
      | g :: gs => (c :: g) :: gs

/-- Model of `s.split(sep)` for a one-character separator string
(splits at every occurrence, keeping empty pieces). -/
def splitEvery (sep : Char) (l : List Char) : List (List Char) :=
  l.foldr
    (fun x acc =>
      if x == sep then [] :: acc
      else
        match acc with
        | g :: gs => (x :: g) :: gs
        | [] => [[x]])
    [[]]

/-- Model of `s.replace(pat, "")` (first occurrence only) on character lists. -/
def removeFirstL (pat : List Char) : List Char → List Char
  | [] => []
  | b :: bs => if isPrefixL pat (b :: bs) then (b :: bs).drop pat.length
               else b :: removeFirstL pat bs

/-- Digit-string value. -/
def digitsVal : List Char → Nat → Nat
  | [], acc => acc
  | c :: cs, acc => digitsVal cs (acc * 10 + (c.toNat - '0'.toNat))

/-- Model of `parseInt` on the all-digit substrings produced by the session
filename format: `none` models `NaN` (no leading digits). -/
def jsParseInt (l : List Char) : Option Nat :=
  let ds := l.takeWhile Char.isDigit
  if ds.isEmpty then none else some (digitsVal ds 0)

/-- Model of `String(n).padStart(2, "0")` for a natural number. -/
def pad2 (n : Nat) : String :=
  let s := toString n
  if s.data.length < 2 then "0" ++ s else s

/-- Lexicographic comparison of character lists (code-unit order, the order
`localeCompare` induces on the ASCII ISO timestamps compared here). -/
def listLe : List Char → List Char → Bool
  | [], _ => true
  | _ :: _, [] => false
  | a :: as, b :: bs =>
    if a == b then listLe as bs else decide (a.toNat < b.toNat)

/-- `s ≤ t` in code-unit order. -/
def jsStrLe (s t : String) : Bool := listLe s.data t.data

/-- The JS `\w` word-character class. -/
def isWordChar (c : Char) : Bool :=
  ('a' ≤ c && c ≤ 'z') || ('A' ≤ c && c ≤ 'Z') || ('0' ≤ c && c ≤ '9') || c == '_'

/-- Uppercasing every word-initial character, as
`replace(/\b\w/g, c => c.toUpperCase())` does. -/
def titleCaseL : Bool → List Char → List Char
  | _, [] => []
  | atBoundary, c :: cs =>
    (if atBoundary && isWordChar c then c.toUpper else c)
      :: titleCaseL (!isWordChar c) cs

/-- Model of `n || d` for the numeric config fields (`0` is falsy). -/
def jsOrNat (n d : Nat) : Nat := if n = 0 then d else n

end Js

open Js

/-! ## Data model

Transcript entries are modelled after JSON parsing: each raw JSONL line either
fails to parse (`none`) or yields an `Entry`.  Absent or falsy string fields
are modelled by `""`; absent objects by `Option`. -/

/-- One content block of a structured message payload. -/
inductive Block where
  | str (s : String)
  | text (t : String)
  | toolUse
  | toolResult (content : Option String)
  | other (type : String)
deriving DecidableEq

/-- A message content payload: a plain string or a sequence of typed blocks. -/
inductive Content where
  | str (s : String)
  | blocks (bs : List Block)
deriving DecidableEq

/-- JS truthiness of a content payload (`""` is falsy, any array is truthy). -/
def Content.truthy : Content → Bool
  | .str s => !s.data.isEmpty
  | .blocks _ => true

/-- The `message` object of a transcript entry. -/
structure Message where
  role : String
  content : Option Content
deriving DecidableEq

/-- A parsed transcript entry.  `type = ""` models a missing/falsy `type`. -/
structure Entry where
  type : String
  isMeta : Bool
  message : Option Message
deriving DecidableEq

/-- A candidate or validated memory fact. -/
structure Memory where
  category : String
  content : String
deriving DecidableEq

/-- The merged configuration (`memory-config.json` over defaults). -/
structure Config where
  enabled : Bool
  min_messages : Nat
  categories : List String
  synthesis_interval_hours : Nat
  max_memories_per_category : Nat
  cleanup_after_days : Nat
deriving DecidableEq

/-- `DEFAULT_CONFIG` from `memory-utils.js`. -/
def DEFAULT_CONFIG : Config :=
  { enabled := true
    min_messages := 5
    categories := ["work_context", "preferences", "technical_style",
                   "ongoing_projects", "tools_and_workflows"]
    synthesis_interval_hours := 24
    max_memories_per_category := 15
    cleanup_after_days := 30 }

namespace SaveMemory

/-! ## `save-memory.js` (oracle-variant SessionEnd hook) -/

def MAX_CONVERSATION_BYTES : Nat := 50000

def MAX_MEMORIES : Nat := 15

/-- The result object of `extractConversationText`. -/
structure ReducedConversation where
  text : String
  messageCount : Nat
  userMessages : List String
  assistantMessages : List String
deriving DecidableEq

/-- The block loop of `extractHumanText` for array contents: keeps string
blocks and non-empty text blocks that carry no command markers and are at
most 2000 characters long. -/
def humanTextParts : List Block → List String
  | [] => []
  | .str s :: rest => s :: humanTextParts rest
  | .text t :: rest =>
    if t.data.isEmpty then humanTextParts rest
    else if jsIncludes t "<command-name>" || jsIncludes t "<command-message>" then
      humanTextParts rest
    else if 2000 < jsLength t then humanTextParts rest
    else t :: humanTextParts rest
  | _ :: rest => humanTextParts rest

/-- `extractHumanText`: human-typed text of a user message content. -/
def extractHumanText : Content → String
  | .str content =>
    if jsIncludes content "<command-name>" || jsIncludes content "<command-message>"
        || jsIncludes content "<local-command" then ""
    else jsTrim content
  | .blocks content => jsTrim (jsJoin " " (humanTextParts content))

/-- The block loop of `extractAssistantText`: keeps string blocks and
non-empty text blocks, truncating text blocks over 1000 characters with an
ellipsis marker. -/
def assistantTextParts : List Block → List String
  | [] => []
  | .str s :: rest => s :: assistantTextParts rest
  | .text t :: rest =>
    if t.data.isEmpty then assistantTextParts rest
    else if 1000 < jsLength t then (jsTake t 1000 ++ "...") :: assistantTextParts rest
    else t :: assistantTextParts rest
  | _ :: rest => assistantTextParts rest

/-- `extractAssistantText`: natural-language text of an assistant content. -/
def extractAssistantText : Content → String
  | .str s => jsTrim s
  | .blocks bs => jsTrim (jsJoin " " (assistantTextParts bs))

/-- The transcript-reading loop of `extractConversationText`: walks the parsed
lines accumulating user/assistant texts and a running character total, and
stops as soon as the total reaches `MAX_CONVERSATION_BYTES`. -/
def collectLoop : List (Option Entry) → Nat → List String → List String →
    List String × List String
  | [], _, us, as => (us.reverse, as.reverse)
  | l :: rest, totalBytes, us, as =>
    if MAX_CONVERSATION_BYTES ≤ totalBytes then (us.reverse, as.reverse)
    else
      match l with
      | none => collectLoop rest totalBytes us as
      | some entry =>
        match entry.message with
        | none => collectLoop rest totalBytes us as
        | some msg =>
          if entry.type = "" ∨ entry.type = "file-history-snapshot" ∨
              entry.type = "summary" ∨ entry.type = "progress" ∨ entry.isMeta then
            collectLoop rest totalBytes us as
          else
            match msg.content with
            | none => collectLoop rest totalBytes us as
            | some content =>
              if content.truthy = false then collectLoop rest totalBytes us as
              else if msg.role = "user" then
                let text := extractHumanText content
                if text ≠ "" ∧ 5 < jsLength text then
                  collectLoop rest (totalBytes + jsLength text) (text :: us) as
                else collectLoop rest totalBytes us as
              else if msg.role = "assistant" then
                let text := extractAssistantText content
                if text ≠ "" ∧ 5 < jsLength text then
                  collectLoop rest (totalBytes + jsLength text) us (text :: as)
                else collectLoop rest totalBytes us as
              else collectLoop rest totalBytes us as

/-- The index-interleaving loop: `USER:` line for index `i`, then the
`ASSISTANT:` line for index `i`, for `i` up to the longer list. -/
def interleaveMsgs : List String → List String → List String
  | [], as => as.map (fun a => "ASSISTANT: " ++ a)
  | u :: us, [] => ("USER: " ++ u) :: interleaveMsgs us []
  | u :: us, a :: as =>
    ("USER: " ++ u) :: ("ASSISTANT: " ++ a) :: interleaveMsgs us as

/-- The backwards budget loop over the reversed message list: keep taking
messages while the running sum of their byte lengths stays within the budget. -/
def suffixLoop : Nat → List String → List String
  | _, [] => []
  | size, m :: rest =>
    if MAX_CONVERSATION_BYTES < size + byteLen m then []
    else m :: suffixLoop (size + byteLen m) rest

/-- `parts`: the suffix of `msgs` kept when the serialized text is over
budget (work backwards from the most recent message). -/
def takeSuffixBudget (msgs : List String) : List String :=
  (suffixLoop 0 msgs.reverse).reverse

/-- `extractConversationText`: reduce a parsed transcript to role-tagged
conversation text, applying the `min_messages` gate and the byte budget. -/
def extractConversationText (transcript : List (Option Entry)) (config : Config) :
    ReducedConversation :=
  let collected := collectLoop transcript 0 [] []
  let userMessages := collected.1
  let assistantMessages := collected.2
  let messageCount := userMessages.length + assistantMessages.length
  let minMessages := jsOrNat config.min_messages 5
  if messageCount < minMessages then
    { text := "", messageCount := messageCount, userMessages := [], assistantMessages := [] }
  else
    let allMessages := interleaveMsgs userMessages assistantMessages
    let text := jsJoin "\n\n" allMessages
    if MAX_CONVERSATION_BYTES < byteLen text then
      { text := jsJoin "\n\n" (takeSuffixBudget allMessages), messageCount := messageCount,
        userMessages := userMessages, assistantMessages := assistantMessages }
    else
      { text := text, messageCount := messageCount,
        userMessages := userMessages, assistantMessages := assistantMessages }

end SaveMemory

/-- A minimal JSON value model for the oracle response, as produced by
`JSON.parse`. -/
inductive JsVal where
  | null
  | bool (b : Bool)
  | num (n : Int)
  | str (s : String)
  | arr (elems : List JsVal)
  | obj (fields : List (String × JsVal))

/-- Object field access (`v.k`), `none` when `v` is not an object or lacks `k`. -/
def JsVal.getField : JsVal → String → Option JsVal
  | .obj fields, k => fields.lookup k
  | _, _ => none

/-- Outcome of the `execSync` call on the external summarization oracle:
either the synchronous call threw (CLI not installed, 90s timeout, auth
failure, non-zero exit, …) or it completed with some stdout text. -/
inductive OracleOutcome where
  | failure (message : String)
  | completed (stdout : String)
deriving DecidableEq

namespace SaveMemory

/-- The candidate-memory filter of `tryAIExtraction`'s success path: keep the
array elements that are objects with string `category` and `content` fields
(read off as a `Memory`; the strings may still be empty or uncategorized —
validation happens later in `main`). -/
def memoriesOfJson : List JsVal → List Memory
  | [] => []
  | .obj fields :: rest =>
    match fields.lookup "category", fields.lookup "content" with
    | some (.str c), some (.str t) => { category := c, content := t } :: memoriesOfJson rest
    | _, _ => memoriesOfJson rest
  | _ :: rest => memoriesOfJson rest

/-- `tryAIExtraction`: run the oracle and post-process its output.
`jsonParse` models `JSON.parse`, with `none` for a parse error (the throw is
caught by the surrounding `try`, which returns `[]`).  Every failure path —
the call throwing, no braces in the output, unparsable JSON, or a result
without a `memories` array — yields `[]`. -/
def tryAIExtraction (jsonParse : String → Option JsVal) :
    OracleOutcome → List Memory
  | .failure _ => []
  | .completed result =>
    let trimmed := jsTrim result
    match jsIndexOfChar trimmed '{', jsLastIndexOfChar trimmed '}' with
    | some jsonStart, some jsonEnd =>
      match jsonParse (jsSubstring trimmed jsonStart (jsonEnd + 1)) with
      | none => []
      | some parsed =>
        match parsed.getField "memories" with
        | some (.arr ms) => memoriesOfJson ms
        | _ => []
    | _, _ => []

/-- The scan subroutines of `heuristicExtraction` (file-extension counting,
framework lexicon matching), abstracted as functions from the joined
conversation text to the optional fact content they emit; the source builds
these with JS regexes over a fixed lexicon, emitting at most one fact each. -/
structure HeuristicScans where
  extContent : String → Option String
  fwContent : String → Option String

/-- One preference-table rule: a regex test (abstracted as a predicate, the
source uses a fixed table of case-insensitive regexes) and the category it
assigns. -/
structure PrefRule where
  test : String → Bool
  category : String

/-- First matching rule wins for a sentence (the inner `break`). -/
def firstRuleMatch : List PrefRule → String → Option Memory
  | [], _ => none
  | rule :: rest, sentence =>
    if rule.test sentence then some { category := rule.category, content := sentence }
    else firstRuleMatch rest sentence

/-- The sentence loop over one user message: split on `[.!?\n]+`, keep
sentences whose trimmed form is over 10 characters, drop those over 500, and
emit the first matching rule's fact. -/
def sentenceFacts (rules : List PrefRule) (userMsg : String) : List Memory :=
  (((splitRuns (fun c => c == '.' || c == '!' || c == '?' || c == '\n')
      userMsg.data).map String.mk).filter
        (fun s => 10 < jsLength (jsTrim s))).filterMap
    (fun sentence =>
      let trimmed := jsTrim sentence
      if 500 < jsLength trimmed then none
      else firstRuleMatch rules trimmed)

/-- The preference-pattern loop over all user messages. -/
def prefFacts (rules : List PrefRule) (userMessages : List String) : List Memory :=
  userMessages.flatMap (sentenceFacts rules)

/-- `heuristicExtraction` from `save-memory.js`: preference facts from user
sentences, then the extension fact, the framework fact and the
working-directory fact, capped at `MAX_MEMORIES`.  Note the working-directory
fact is pushed whenever `workingDir` is truthy — there is no comparison
against the process working directory in this variant. -/
def heuristicExtraction (scans : HeuristicScans) (rules : List PrefRule)
    (conversation : ReducedConversation) (_config : Config) (workingDir : String) :
    List Memory :=
  let _allUserText := jsJoin "\n" conversation.userMessages
  let allText := jsJoin "\n" (conversation.userMessages ++ conversation.assistantMessages)
  let memories := prefFacts rules conversation.userMessages
  let memories := memories ++
    match scans.extContent allText with
    | some content => [{ category := "technical_style", content := content }]
    | none => []
  let memories := memories ++
    match scans.fwContent allText with
    | some content => [{ category := "tools_and_workflows", content := content }]
    | none => []
  let memories := memories ++
    (if workingDir ≠ "" then
      [{ category := "ongoing_projects", content := "Worked in: " ++ workingDir }]
    else [])
  memories.take MAX_MEMORIES

/-- The extraction stage of `main` (lines 83–89): try the oracle tier first,
fall back to the heuristic tier when it produced nothing. -/
def extractionStage (jsonParse : String → Option JsVal) (oracle : OracleOutcome)
    (scans : HeuristicScans) (rules : List PrefRule)
    (conversation : ReducedConversation) (config : Config) (workingDir : String) :
    List Memory :=
  let memories := tryAIExtraction jsonParse oracle
  if memories.isEmpty then heuristicExtraction scans rules conversation config workingDir
  else memories

/-- The validation step of `main` (lines 99–106): a raw candidate survives if
it is an object (`some`) with truthy `category` and `content` whose category
is in the configured set (an empty set admits everything); survivors get
`content` truncated to 500 characters, and at most `MAX_MEMORIES` are kept. -/
def validateMemories (config : Config) (memories : List (Option Memory)) :
    List Memory :=
  ((memories.filter (fun mem =>
      match mem with
      | none => false
      | some m => m.category ≠ "" ∧ m.content ≠ "" ∧
          (config.categories.isEmpty ∨ m.category ∈ config.categories))).filterMap
    (fun mem => mem.map (fun m => { category := m.category, content := jsTake m.content 500 }))).take
    MAX_MEMORIES

end SaveMemory

namespace MarkerHook

/-! ## The AI-marker SessionEnd hook variant

The second SessionEnd hook script (dual strategy: `MEMORY_EXTRACT` markers,
then heuristics).  Its heuristic tier differs from `save-memory.js`: it takes
raw parsed entries, applies the `min_messages` gate itself, adds an activity
fact, caps at 25 facts, and emits the working-directory fact only when the
directory differs from `process.cwd()`. -/

/-- `getEntryTextContent`: all text of an entry, including string
`tool_result` contents, joined with newlines; `""` for non-message entries. -/
def getEntryTextContent (entry : Entry) : String :=
  if entry.type = "file-history-snapshot" ∨ entry.type = "summary" ∨
      entry.type = "progress" then ""
  else
    match entry.message with
    | none => ""
    | some msg =>
      match msg.content with
      | none => ""
      | some content =>
        match content with
        | .str s => s
        | .blocks bs =>
          jsJoin "\n"
            ((bs.map (fun block =>
              match block with
              | .str s => s
              | .text t => t
              | .toolResult (some s) => s
              | _ => "")).filter (fun s => s ≠ ""))

/-- `getEntryRole`. -/
def getEntryRole (entry : Entry) : String :=
  match entry.message with
  | none => ""
  | some msg => msg.role

/-- The message-collection loop of this variant's `heuristicExtraction`:
no length filters, no byte budget; skips non-conversation entry types and
messages containing command markers. -/
def collectMessages : List Entry → List String × List String
  | [] => ([], [])
  | entry :: rest =>
    let next := collectMessages rest
    if entry.type = "file-history-snapshot" ∨ entry.type = "summary" ∨
        entry.type = "progress" then next
    else
      let content := getEntryTextContent entry
      if content = "" then next
      else if jsIncludes content "<command-name>" || jsIncludes content "<local-command" then
        next
      else if getEntryRole entry = "user" then (content :: next.1, next.2)
      else if getEntryRole entry = "assistant" then (next.1, content :: next.2)
      else next

/-- The scan subroutines of this variant (extension counting, framework
lexicon, activity keywords), abstracted like `SaveMemory.HeuristicScans`. -/
structure HeuristicScans where
  extContent : String → Option String
  fwContent : String → Option String
  activityContent : String → Option String

/-- The result object of this variant's extraction functions. -/
structure ExtractionResult where
  memories : List Memory
  summary : String
deriving DecidableEq

/-- `heuristicExtraction` from the AI-marker hook variant.  `cwd` models
`process.cwd()` and `basename` models `path.basename`. -/
def heuristicExtraction (scans : HeuristicScans) (rules : List SaveMemory.PrefRule)
    (basename : String → String) (cwd : String)
    (entries : List Entry) (config : Config) (workingDir : String) :
    ExtractionResult :=
  let collected := collectMessages entries
  let userMessages := collected.1
  let assistantMessages := collected.2
  let totalMessages := userMessages.length + assistantMessages.length
  let minMessages := jsOrNat config.min_messages 5
  if totalMessages < minMessages then { memories := [], summary := "" }
  else
    let _allUserText := jsJoin "\n" userMessages
    let allText := jsJoin "\n" (userMessages ++ assistantMessages)
    let memories := SaveMemory.prefFacts rules userMessages
    let memories := memories ++
      match scans.extContent allText with
      | some content => [{ category := "technical_style", content := content }]
      | none => []
    let memories := memories ++
      match scans.fwContent allText with
      | some content => [{ category := "tools_and_workflows", content := content }]
      | none => []
    let memories := memories ++
      (if workingDir ≠ "" ∧ workingDir ≠ cwd then
        [{ category := "ongoing_projects", content := "Worked in: " ++ workingDir }]
      else [])
    let memories := memories ++
      match scans.activityContent allText with
      | some content => [{ category := "tools_and_workflows", content := content }]
      | none => []
    { memories := memories.take 25
      summary := "Session with " ++ toString totalMessages ++ " messages in " ++
        basename (if workingDir = "" then "unknown" else workingDir) }

/-- The validation step of this variant's `main` (lines 90–98): identical to
`save-memory.js` except that there is no 15-fact cap. -/
def validateMemories (config : Config) (memories : List (Option Memory)) :
    List Memory :=
  (memories.filter (fun mem =>
      match mem with
      | none => false
      | some m => m.category ≠ "" ∧ m.content ≠ "" ∧
          (config.categories.isEmpty ∨ m.category ∈ config.categories))).filterMap
    (fun mem => mem.map (fun m => { category := m.category, content := jsTake m.content 500 }))

end MarkerHook

namespace Synthesis

/-! ## `synthesize-memory.js` -/

/-- A JS `Date` value as observed by the script: the local-time getter values
(`getMonth0` is the 0-based `getMonth()`) plus `getTime()` in epoch ms. -/
structure JsDate where
  year : Nat
  month0 : Nat
  day : Nat
  hours : Nat
  minutes : Nat
  seconds : Nat
  epochMs : Int
deriving DecidableEq

/-- One memory of a stored session file (`session_*.json`), with `""`
modelling absent fields. -/
structure SessMem where
  category : String
  content : String
deriving DecidableEq

/-- A parsed session file. -/
structure SessionFile where
  timestamp : String
  working_directory : String
  memories : List SessMem
deriving DecidableEq

/-- A flattened memory as built by `loadSessionMemories`. -/
structure SynthMem where
  category : String
  content : String
  timestamp : String
  working_directory : String
  source_file : String
deriving DecidableEq

/-- The filesystem state touched by the synthesis script: the session-records
directory (filename and parse result per file), the rendered document, and
the synthesis-state file (the timestamp it stores). -/
structure FsState where
  sessions : List (String × Option SessionFile)
  memoryMd : Option String
  synthesisState : Option JsDate
deriving DecidableEq

def CATEGORY_ORDER : List String :=
  ["work_context", "ongoing_projects", "preferences", "technical_style",
   "tools_and_workflows"]

def CATEGORY_NAMES : List (String × String) :=
  [("work_context", "Work Context"), ("preferences", "Preferences"),
   ("technical_style", "Technical Style"), ("ongoing_projects", "Ongoing Projects"),
   ("tools_and_workflows", "Tools & Workflows")]

/-- `formatCategoryName`: display name from the table, else underscore→space
with word-initial uppercasing. -/
def formatCategoryName (category : String) : String :=
  match CATEGORY_NAMES.lookup category with
  | some name => name
  | none =>
    String.mk (titleCaseL true
      (category.data.map (fun c => if c == '_' then ' ' else c)))

/-- `loadSessionMemories`: flatten every parsable `session_*.json` file into
individual records (unparsable files are warned about and skipped). -/
def loadSessionMemories (sessions : List (String × Option SessionFile)) :
    List SynthMem :=
  (sessions.filter (fun p => jsStartsWith p.1 "session_" && jsEndsWith p.1 ".json")).flatMap
    (fun p =>
      match p.2 with
      | none => []
      | some sessionData =>
        sessionData.memories.map (fun mem =>
          { category := if mem.category = "" then "other" else mem.category
            content := mem.content
            timestamp := sessionData.timestamp
            working_directory := sessionData.working_directory
            source_file := p.1 }))

/-- Append a memory to its category's bucket, keeping first-seen key order
(JS object insertion order). -/
def addToCategory (cat : String) (m : SynthMem) :
    List (String × List SynthMem) → List (String × List SynthMem)
  | [] => [(cat, [m])]
  | (c, ms) :: rest =>
    if c = cat then (c, ms ++ [m]) :: rest
    else (c, ms) :: addToCategory cat m rest

/-- The `byCategory` grouping. -/
def groupByCategory (memories : List SynthMem) : List (String × List SynthMem) :=
  memories.foldl (fun acc m => addToCategory m.category m acc) []

/-- Stable insertion step for the newest-first sort: `m` goes in front of the
first element whose timestamp is ≤ its own. -/
def insertDesc (m : SynthMem) : List SynthMem → List SynthMem
  | [] => [m]
  | x :: xs =>
    if jsStrLe x.timestamp m.timestamp then m :: x :: xs
    else x :: insertDesc m xs

/-- The `sort((a, b) => tb.localeCompare(ta))` call: a stable sort by
timestamp, newest first (insertion sort is the canonical stable sort). -/
def sortByTimestampDesc : List SynthMem → List SynthMem
  | [] => []
  | m :: rest => insertDesc m (sortByTimestampDesc rest)

/-- One seen-content comparison of the dedup loop: exact match, or (both
over 20 chars) substring overlap either way. -/
def isDupPair (content seen : String) : Bool :=
  content == seen ||
    (decide (20 < jsLength content) && decide (20 < jsLength seen) &&
      (jsIncludes content seen || jsIncludes seen content))

/-- `isDuplicate` against the list of already-kept contents. -/
def isDuplicate (content : String) (seenContent : List String) : Bool :=
  seenContent.any (isDupPair content)

/-- The kept-items walk of `deduplicateMemories`: newest-first traversal,
skipping duplicates, stopping once `maxPerCategory` are kept (the item that
reaches the cap is pushed first, then the loop breaks). -/
def dedupLoop (maxPerCategory : Nat) :
    List SynthMem → List String → List SynthMem → List SynthMem
  | [], _, uniqueMems => uniqueMems.reverse
  | mem :: rest, seenContent, uniqueMems =>
    let content := jsTrim (jsToLower mem.content)
    if isDuplicate content seenContent then
      dedupLoop maxPerCategory rest seenContent uniqueMems
    else if maxPerCategory ≤ uniqueMems.length + 1 then (mem :: uniqueMems).reverse
    else dedupLoop maxPerCategory rest (content :: seenContent) (mem :: uniqueMems)

/-- `deduplicateMemories`: group by category, sort newest first, dedup and
cap each bucket. -/
def deduplicateMemories (memories : List SynthMem) (maxPerCategory : Nat) :
    List (String × List SynthMem) :=
  (groupByCategory memories).map
    (fun p => (p.1, dedupLoop maxPerCategory (sortByTimestampDesc p.2) [] []))

/-- The timestamp line's time string. -/
def formatSynthTime (t : JsDate) : String :=
  toString t.year ++ "-" ++ pad2 (t.month0 + 1) ++ "-" ++ pad2 t.day ++ " " ++
    pad2 t.hours ++ ":" ++ pad2 t.minutes

/-- The lines of one rendered category section. -/
def sectionLines (category : String) (mems : List SynthMem) : List String :=
  ("## " ++ formatCategoryName category) ::
    (mems.map (fun m => "- " ++ m.content) ++ [""])

/-- The categories added by the known-category loop (`addedCategories`). -/
def addedCats (memoriesByCategory : List (String × List SynthMem)) : List String :=
  CATEGORY_ORDER.filter (fun c =>
    match memoriesByCategory.lookup c with
    | some ms => !ms.isEmpty
    | none => false)

/-- The known-category sections, in `CATEGORY_ORDER`. -/
def knownSectionLines (memoriesByCategory : List (String × List SynthMem)) :
    List String :=
  CATEGORY_ORDER.flatMap (fun c =>
    match memoriesByCategory.lookup c with
    | some ms => if ms.isEmpty then [] else sectionLines c ms
    | none => [])

/-- The remaining non-empty sections, in encounter order. -/
def remainingSectionLines (memoriesByCategory : List (String × List SynthMem)) :
    List String :=
  (memoriesByCategory.filter (fun p =>
      !(addedCats memoriesByCategory).contains p.1 && !p.2.isEmpty)).flatMap
    (fun p => sectionLines p.1 p.2)

/-- `generateMemoryMd` as its line list (the source builds `lines` and joins
with a newline at the end). -/
def generateMemoryMdLines (memoriesByCategory : List (String × List SynthMem))
    (synthesisTime : JsDate) : List String :=
  ["# Claude Code Memory", "",
   "*Last synthesized: " ++ formatSynthTime synthesisTime ++ "*", ""] ++
    knownSectionLines memoriesByCategory ++ remainingSectionLines memoriesByCategory

/-- `generateMemoryMd`. -/
def generateMemoryMd (memoriesByCategory : List (String × List SynthMem))
    (synthesisTime : JsDate) : String :=
  jsJoin "\n" (generateMemoryMdLines memoriesByCategory synthesisTime)

/-- The filename-to-date parse of `cleanupOldSessions`
(`session_YYYYMMDD_HHMMSS.json`): strip the first `session_` and `.json`
occurrences, split on `_`, demand exactly two parts, and `parseInt` the six
fixed-width fields; `none` models a `NaN` component (Invalid Date, which
compares false and is therefore kept). -/
def parseSessionDate (file : String) :
    Option (Nat × Nat × Nat × Nat × Nat × Nat) :=
  let name := removeFirstL ".json".data (removeFirstL "session_".data file.data)
  match splitEvery '_' name with
  | [dateStr, timeStr] =>
    match jsParseInt ((dateStr.take 4).drop 0), jsParseInt ((dateStr.take 6).drop 4),
        jsParseInt ((dateStr.take 8).drop 6), jsParseInt ((timeStr.take 2).drop 0),
        jsParseInt ((timeStr.take 4).drop 2), jsParseInt ((timeStr.take 6).drop 4) with
    | some y, some mo, some d, some h, some mi, some s => some (y, mo, d, h, mi, s)
    | _, _, _, _, _, _ => none
  | _ => none

/-- `cleanupOldSessions`: delete every `session_*.json` whose
filename-encoded creation time is before `now - days`, skipping files whose
name does not parse.  `toMs` models the local-time
`new Date(year, month - 1, day, hour, minute, second).getTime()` conversion
(timezone-dependent platform behavior). -/
def cleanupOldSessions (toMs : Nat → Nat → Nat → Nat → Nat → Nat → Int)
    (sessions : List (String × Option SessionFile)) (days : Nat) (nowMs : Int) :
    List (String × Option SessionFile) :=
  let cutoff : Int := nowMs - (days : Int) * 24 * 60 * 60 * 1000
  sessions.filter (fun p =>
    if jsStartsWith p.1 "session_" && jsEndsWith p.1 ".json" then
      match parseSessionDate p.1 with
      | some (y, mo, d, h, mi, s) => !decide (toMs y mo d h mi s < cutoff)
      | none => true
    else true)

/-- `main` of `synthesize-memory.js` as a state transformer: returns the
exit code and the filesystem state after the run.  Note `--force` is parsed
but never consulted afterwards — there is no interval gate here. -/
def synthMain (toMs : Nat → Nat → Nat → Nat → Nat → Nat → Int)
    (args : List String) (config : Config) (fs : FsState) (now : JsDate) :
    Nat × FsState :=
  let _force := args.contains "--force"
  let noCleanup := args.contains "--no-cleanup"
  let memories := loadSessionMemories fs.sessions
  if memories.isEmpty then (0, fs)
  else
    let maxPerCategory := jsOrNat config.max_memories_per_category 15
    let memoriesByCategory := deduplicateMemories memories maxPerCategory
    let memoryContent := generateMemoryMd memoriesByCategory now
    let fs1 : FsState := { fs with memoryMd := some memoryContent }
    let fs2 : FsState := { fs1 with synthesisState := some now }
    let fs3 : FsState :=
      if noCleanup then fs2
      else { fs2 with
        sessions := cleanupOldSessions toMs fs2.sessions
          (jsOrNat config.cleanup_after_days 30) now.epochMs }
    (0, fs3)

end Synthesis

/-! ## Theorems for the claims -/

/-- Prepending `--force` does not change which other flags are seen. -/
theorem contains_cons_ne (args : List String) (x a : String) (h : (x == a) = false) :
    (a :: args).contains x = args.contains x := by
  simp only [List.contains_cons, h, Bool.false_or]

/-- C10: the manual synthesis script never consults the interval gate or the
last-synthesis timestamp, so a run with `--force` and a run without it
produce the same exit code, document, synthesis state and cleanup effects on
every filesystem state. -/
theorem c10_force_flag_is_inert (toMs : Nat → Nat → Nat → Nat → Nat → Nat → Int)
    (args : List String) (config : Config) (fs : Synthesis.FsState)
    (now : Synthesis.JsDate) :
    Synthesis.synthMain toMs ("--force" :: args) config fs now =
      Synthesis.synthMain toMs args config fs now := by
  unfold Synthesis.synthMain
  rw [contains_cons_ne args "--no-cleanup" "--force" (by decide)]

/-- C9: a run that flattens zero facts from the session store exits with
code 0 and leaves the document, the synthesis state and the session store
untouched. -/
theorem c9_no_memories_is_no_op (toMs : Nat → Nat → Nat → Nat → Nat → Nat → Int)
    (args : List String) (config : Config) (fs : Synthesis.FsState)
    (now : Synthesis.JsDate)
    (h : Synthesis.loadSessionMemories fs.sessions = []) :
    Synthesis.synthMain toMs args config fs now = (0, fs) := by
  unfold Synthesis.synthMain
  simp [h]

/-- Witness for C9 at a concrete store holding only an unparsable session
file. -/
theorem c9_no_memories_is_no_op_witness :
    Synthesis.loadSessionMemories
        (Synthesis.FsState.mk [("session_20250101_000000.json", none)] none none).sessions = [] ∧
    Synthesis.synthMain (fun _ _ _ _ _ _ => 0) [] DEFAULT_CONFIG
        (Synthesis.FsState.mk [("session_20250101_000000.json", none)] none none)
        (Synthesis.JsDate.mk 2025 0 1 0 0 0 1735689600000) =
      (0, Synthesis.FsState.mk [("session_20250101_000000.json", none)] none none) :=
  ⟨by decide, c9_no_memories_is_no_op _ _ _ _ _ (by decide)⟩

/-- C8: re-running the Synthesis Engine on the same record set renders a
line-for-line identical document, except for the timestamp line (index 2). -/
theorem c8_rerun_identical_modulo_timestamp (memories : List Synthesis.SynthMem)
    (maxPerCategory : Nat) (t1 t2 : Synthesis.JsDate) :
    Synthesis.generateMemoryMdLines
        (Synthesis.deduplicateMemories memories maxPerCategory) t1 =
      (Synthesis.generateMemoryMdLines
        (Synthesis.deduplicateMemories memories maxPerCategory) t2).set 2
          ("*Last synthesized: " ++ Synthesis.formatSynthTime t1 ++ "*") := by
  simp [Synthesis.generateMemoryMdLines, List.set]

/-- C7: every possible outcome of the oracle tier is settled.  Each failure
mode of `tryAIExtraction` — the `execSync` call throwing (unavailable CLI,
90s timeout, auth error), output with no `\x7b`, output with no `\x7d`,
a brace-delimited slice that fails to parse, a parse result without a
`memories` field, and a `memories` field that is not an array — returns the
empty list; the extraction stage of `main` then returns exactly the
heuristic tier's result whenever the oracle produced nothing; and the final
conjunct shows this enumeration is exhaustive: every outcome either yields
the empty list or is the genuine success path (braces found, JSON parsed,
`memories` an array).  No failure escapes as an exception: the embedded
stage is a total function. -/
theorem c7_oracle_failure_never_aborts (jsonParse : String → Option JsVal)
    (scans : SaveMemory.HeuristicScans) (rules : List SaveMemory.PrefRule)
    (conversation : SaveMemory.ReducedConversation) (config : Config)
    (workingDir : String) :
    (∀ outcome, SaveMemory.tryAIExtraction jsonParse outcome = [] →
      SaveMemory.extractionStage jsonParse outcome scans rules
          conversation config workingDir =
        SaveMemory.heuristicExtraction scans rules conversation config workingDir) ∧
    (∀ message,
      SaveMemory.tryAIExtraction jsonParse (.failure message) = []) ∧
    (∀ stdout, jsIndexOfChar (jsTrim stdout) '{' = none →
      SaveMemory.tryAIExtraction jsonParse (.completed stdout) = []) ∧
    (∀ stdout, jsLastIndexOfChar (jsTrim stdout) '}' = none →
      SaveMemory.tryAIExtraction jsonParse (.completed stdout) = []) ∧
    (∀ stdout jsonStart jsonEnd,
      jsIndexOfChar (jsTrim stdout) '{' = some jsonStart →
      jsLastIndexOfChar (jsTrim stdout) '}' = some jsonEnd →
      jsonParse (jsSubstring (jsTrim stdout) jsonStart (jsonEnd + 1)) = none →
      SaveMemory.tryAIExtraction jsonParse (.completed stdout) = []) ∧
    (∀ stdout jsonStart jsonEnd parsed,
      jsIndexOfChar (jsTrim stdout) '{' = some jsonStart →
      jsLastIndexOfChar (jsTrim stdout) '}' = some jsonEnd →
      jsonParse (jsSubstring (jsTrim stdout) jsonStart (jsonEnd + 1)) = some parsed →
      parsed.getField "memories" = none →
      SaveMemory.tryAIExtraction jsonParse (.completed stdout) = []) ∧
    (∀ stdout jsonStart jsonEnd parsed v,
      jsIndexOfChar (jsTrim stdout) '{' = some jsonStart →
      jsLastIndexOfChar (jsTrim stdout) '}' = some jsonEnd →
      jsonParse (jsSubstring (jsTrim stdout) jsonStart (jsonEnd + 1)) = some parsed →
      parsed.getField "memories" = some v → (∀ ms, v ≠ JsVal.arr ms) →
      SaveMemory.tryAIExtraction jsonParse (.completed stdout) = []) ∧
    (∀ outcome, SaveMemory.tryAIExtraction jsonParse outcome = [] ∨
      ∃ stdout jsonStart jsonEnd parsed ms, outcome = .completed stdout ∧
        jsIndexOfChar (jsTrim stdout) '{' = some jsonStart ∧
        jsLastIndexOfChar (jsTrim stdout) '}' = some jsonEnd ∧
        jsonParse (jsSubstring (jsTrim stdout) jsonStart (jsonEnd + 1)) = some parsed ∧
        parsed.getField "memories" = some (JsVal.arr ms) ∧
        SaveMemory.tryAIExtraction jsonParse outcome =
          SaveMemory.memoriesOfJson ms) := by
  refine ⟨fun outcome h => by simp [SaveMemory.extractionStage, h],
    fun message => rfl,
    fun stdout h1 => by simp [SaveMemory.tryAIExtraction, h1],
    fun stdout h1 => ?_, fun stdout a b h1 h2 h3 => ?_,
    fun stdout a b parsed h1 h2 h3 h4 => ?_,
    fun stdout a b parsed v h1 h2 h3 h4 hv => ?_, fun outcome => ?_⟩
  · rcases h0 : jsIndexOfChar (jsTrim stdout) '{' with _ | js <;>
      simp [SaveMemory.tryAIExtraction, h0, h1]
  · simp [SaveMemory.tryAIExtraction, h1, h2, h3]
  · simp [SaveMemory.tryAIExtraction, h1, h2, h3, h4]
  · cases v with
    | arr ms => exact absurd rfl (hv ms)
    | null => simp [SaveMemory.tryAIExtraction, h1, h2, h3, h4]
    | bool b2 => simp [SaveMemory.tryAIExtraction, h1, h2, h3, h4]
    | num n2 => simp [SaveMemory.tryAIExtraction, h1, h2, h3, h4]
    | str s2 => simp [SaveMemory.tryAIExtraction, h1, h2, h3, h4]
    | obj fields2 => simp [SaveMemory.tryAIExtraction, h1, h2, h3, h4]
  · cases outcome with
    | failure message => exact Or.inl rfl
    | completed stdout =>
      rcases h1 : jsIndexOfChar (jsTrim stdout) '{' with _ | js
      · exact Or.inl (by simp [SaveMemory.tryAIExtraction, h1])
      · rcases h2 : jsLastIndexOfChar (jsTrim stdout) '}' with _ | je
        · exact Or.inl (by simp [SaveMemory.tryAIExtraction, h1, h2])
        · rcases h3 : jsonParse (jsSubstring (jsTrim stdout) js (je + 1))
              with _ | parsed
          · exact Or.inl (by simp [SaveMemory.tryAIExtraction, h1, h2, h3])
          · rcases h4 : parsed.getField "memories" with _ | v
            · exact Or.inl (by simp [SaveMemory.tryAIExtraction, h1, h2, h3, h4])
            · cases v with
              | arr ms =>
                exact Or.inr ⟨stdout, js, je, parsed, ms, rfl, h1, h2, h3, h4,
                  by simp [SaveMemory.tryAIExtraction, h1, h2, h3, h4]⟩
              | null =>
                exact Or.inl (by simp [SaveMemory.tryAIExtraction, h1, h2, h3, h4])
              | bool b2 =>
                exact Or.inl (by simp [SaveMemory.tryAIExtraction, h1, h2, h3, h4])
              | num n2 =>
                exact Or.inl (by simp [SaveMemory.tryAIExtraction, h1, h2, h3, h4])
              | str s2 =>
                exact Or.inl (by simp [SaveMemory.tryAIExtraction, h1, h2, h3, h4])
              | obj fields2 =>
                exact Or.inl (by simp [SaveMemory.tryAIExtraction, h1, h2, h3, h4])

/-- Witness for C7: a timed-out oracle call (with heuristic fallback), a
brace-free reply, a reply with an opening brace but no closing one, and a
parsed reply whose `memories` field is a string rather than an array, each
produce the empty oracle result. -/
theorem c7_oracle_failure_never_aborts_witness :
    SaveMemory.tryAIExtraction (fun _ => none)
        (.failure "Command timed out after 90000 ms") = [] ∧
    SaveMemory.extractionStage (fun _ => none)
        (.failure "Command timed out after 90000 ms")
        (SaveMemory.HeuristicScans.mk (fun _ => none) (fun _ => none)) []
        (SaveMemory.ReducedConversation.mk "" 0 [] []) DEFAULT_CONFIG "/home/u/p" =
      SaveMemory.heuristicExtraction
        (SaveMemory.HeuristicScans.mk (fun _ => none) (fun _ => none)) []
        (SaveMemory.ReducedConversation.mk "" 0 [] []) DEFAULT_CONFIG "/home/u/p" ∧
    SaveMemory.tryAIExtraction (fun _ => none)
        (.completed "I could not find any memorable facts.") = [] ∧
    SaveMemory.tryAIExtraction (fun _ => none)
        (.completed "\x7b unterminated") = [] ∧
    SaveMemory.tryAIExtraction
        (fun _ => some (JsVal.obj [("memories", JsVal.str "no facts")]))
        (.completed "\x7bm\x7d") = [] :=
  ⟨(c7_oracle_failure_never_aborts (fun _ => none)
      (SaveMemory.HeuristicScans.mk (fun _ => none) (fun _ => none)) []
      (SaveMemory.ReducedConversation.mk "" 0 [] []) DEFAULT_CONFIG "/home/u/p").2.1
        "Command timed out after 90000 ms",
   (c7_oracle_failure_never_aborts (fun _ => none)
      (SaveMemory.HeuristicScans.mk (fun _ => none) (fun _ => none)) []
      (SaveMemory.ReducedConversation.mk "" 0 [] []) DEFAULT_CONFIG "/home/u/p").1
        (.failure "Command timed out after 90000 ms")
        ((c7_oracle_failure_never_aborts (fun _ => none)
          (SaveMemory.HeuristicScans.mk (fun _ => none) (fun _ => none)) []
          (SaveMemory.ReducedConversation.mk "" 0 [] []) DEFAULT_CONFIG
          "/home/u/p").2.1 "Command timed out after 90000 ms"),
   (c7_oracle_failure_never_aborts (fun _ => none)
      (SaveMemory.HeuristicScans.mk (fun _ => none) (fun _ => none)) []
      (SaveMemory.ReducedConversation.mk "" 0 [] []) DEFAULT_CONFIG "/home/u/p").2.2.1
        "I could not find any memorable facts." (by decide),
   (c7_oracle_failure_never_aborts (fun _ => none)
      (SaveMemory.HeuristicScans.mk (fun _ => none) (fun _ => none)) []
      (SaveMemory.ReducedConversation.mk "" 0 [] []) DEFAULT_CONFIG "/home/u/p").2.2.2.1
        "\x7b unterminated" (by decide),
   (c7_oracle_failure_never_aborts
      (fun _ => some (JsVal.obj [("memories", JsVal.str "no facts")]))
      (SaveMemory.HeuristicScans.mk (fun _ => none) (fun _ => none)) []
      (SaveMemory.ReducedConversation.mk "" 0 [] []) DEFAULT_CONFIG
      "/home/u/p").2.2.2.2.2.2.1
        "\x7bm\x7d" 0 2 (JsVal.obj [("memories", JsVal.str "no facts")])
        (JsVal.str "no facts") (by decide) (by decide) rfl rfl
        (fun ms h => JsVal.noConfusion h)⟩

/-- A string is empty iff its character list is. -/
theorem str_eq_empty_iff (s : String) : s = "" ↔ s.data = [] := by
  constructor
  · intro h
    subst h
    rfl
  · intro h
    cases s with
    | mk d =>
      have hd : d = [] := h
      subst hd
      rfl

/-- Shared core for both hook variants' validation filters. -/
theorem mem_validated_core (config : Config) (memories : List (Option Memory))
    (m : Memory) (hcat : config.categories ≠ [])
    (hm : m ∈ (memories.filter (fun mem =>
        match mem with
        | none => false
        | some m0 => m0.category ≠ "" ∧ m0.content ≠ "" ∧
            (config.categories.isEmpty ∨ m0.category ∈ config.categories))).filterMap
      (fun mem => mem.map
        (fun m0 => { category := m0.category, content := jsTake m0.content 500 }))) :
    m.category ∈ config.categories ∧ m.category ≠ "" ∧ m.content ≠ "" ∧
      jsLength m.content ≤ 500 := by
  rw [List.mem_filterMap] at hm
  obtain ⟨a, ha, hfa⟩ := hm
  rw [List.mem_filter] at ha
  obtain ⟨-, hpred⟩ := ha
  cases a with
  | none => simp at hpred
  | some m0 =>
    simp only [decide_eq_true_eq] at hpred
    obtain ⟨hc, ht, hin⟩ := hpred
    have hin' : m0.category ∈ config.categories := by
      rcases hin with hemp | hmem
      · exact absurd (List.isEmpty_iff.mp hemp) hcat
      · exact hmem
    simp only [Option.map_some', Option.some.injEq] at hfa
    subst hfa
    refine ⟨hin', hc, ?_, ?_⟩
    · intro heq
      have hdata : List.take 500 m0.content.data = [] := (str_eq_empty_iff _).mp heq
      rcases List.take_eq_nil_iff.mp hdata with h500 | hnil
      · cases h500
      · exact ht ((str_eq_empty_iff _).mpr hnil)
    · show (List.take 500 m0.content.data).length ≤ 500
      rw [List.length_take]
      exact Nat.min_le_left _ _

/-- C4: with a non-empty configured category set, every fact surviving the
Session Recorder's validation (in either hook variant) carries a category
from that set, has non-empty category and content, and has content at most
500 characters — hence so does every fact of the Session Record it persists. -/
theorem c4_persisted_facts_validated (config : Config)
    (memories : List (Option Memory)) (hcat : config.categories ≠ []) :
    (∀ m ∈ SaveMemory.validateMemories config memories,
        m.category ∈ config.categories ∧ m.category ≠ "" ∧ m.content ≠ "" ∧
          jsLength m.content ≤ 500) ∧
    (∀ m ∈ MarkerHook.validateMemories config memories,
        m.category ∈ config.categories ∧ m.category ≠ "" ∧ m.content ≠ "" ∧
          jsLength m.content ≤ 500) := by
  constructor
  · intro m hm
    exact mem_validated_core config memories m hcat
      (List.mem_of_mem_take (by exact hm))
  · intro m hm
    exact mem_validated_core config memories m hcat hm

/-- Witness for C4: a mixed candidate list (valid fact, unknown category,
non-object junk, missing category) under the default configuration. -/
theorem c4_persisted_facts_validated_witness :
    DEFAULT_CONFIG.categories ≠ [] ∧
    SaveMemory.validateMemories DEFAULT_CONFIG
        [some (Memory.mk "preferences" "likes tabs"),
         some (Memory.mk "bogus_category" "x"), none,
         some (Memory.mk "" "y")] =
      [Memory.mk "preferences" "likes tabs"] ∧
    (∀ m ∈ SaveMemory.validateMemories DEFAULT_CONFIG
        [some (Memory.mk "preferences" "likes tabs"),
         some (Memory.mk "bogus_category" "x"), none,
         some (Memory.mk "" "y")],
      m.category ∈ DEFAULT_CONFIG.categories ∧ m.category ≠ "" ∧ m.content ≠ "" ∧
        jsLength m.content ≤ 500) :=
  ⟨by decide, by decide,
   (c4_persisted_facts_validated DEFAULT_CONFIG
      [some (Memory.mk "preferences" "likes tabs"),
       some (Memory.mk "bogus_category" "x"), none,
       some (Memory.mk "" "y")] (by decide)).1⟩

/-- The effective per-category cap is always at least 1. -/
theorem jsOrNat_pos (n : Nat) : 1 ≤ jsOrNat n 15 := by
  unfold jsOrNat
  by_cases h : n = 0
  · simp [h]
  · simpa [h] using Nat.pos_of_ne_zero h

/-- The dedup walk never keeps more than `maxPerCategory` items, provided it
starts below the cap. -/
theorem dedupLoop_length_le (maxPerCategory : Nat) (l : List Synthesis.SynthMem) :
    ∀ seen acc, acc.length < maxPerCategory →
      (Synthesis.dedupLoop maxPerCategory l seen acc).length ≤ maxPerCategory := by
  induction l with
  | nil =>
    intro seen acc h
    simpa [Synthesis.dedupLoop] using Nat.le_of_lt h
  | cons mem rest ih =>
    intro seen acc h
    unfold Synthesis.dedupLoop
    by_cases hdup :
        Synthesis.isDuplicate (jsTrim (jsToLower mem.content)) seen = true
    · simpa [hdup] using ih seen acc h
    · by_cases hfull : maxPerCategory ≤ acc.length + 1
      · simpa [hdup, hfull] using h
      · have hlt : (mem :: acc).length < maxPerCategory := Nat.lt_of_not_le hfull
        simpa [hdup, hfull] using ih (jsTrim (jsToLower mem.content) :: seen)
          (mem :: acc) hlt

/-- A string starts with itself plus anything. -/
theorem isPrefixL_append (p r : List Char) : isPrefixL p (p ++ r) = true := by
  induction p with
  | nil => rfl
  | cons c cs ih => simp [isPrefixL, ih]

/-- Every rendered fact line starts with the bullet marker. -/
theorem bullet_starts (content : String) :
    jsStartsWith ("- " ++ content) "- " = true := by
  show isPrefixL ['-', ' '] ('-' :: ' ' :: content.data) = true
  exact isPrefixL_append ['-', ' '] content.data

/-- A section header line does not start with the bullet marker. -/
theorem header_not_bullet (s : String) :
    jsStartsWith ("## " ++ s) "- " = false := by
  show isPrefixL ['-', ' '] ('#' :: '#' :: ' ' :: s.data) = false
  rfl

/-- C3 (amended): every category bucket produced by the Synthesis Engine —
and hence every rendered category section, whose bullet lines are exactly
its bucket — holds at most the *effective* cap
`max_memories_per_category || 15` many facts; in particular the configured
bound itself holds whenever it is at least 1 (the counterexample shows it
can be violated when the configured value is 0, which falls back to 15). -/
theorem c3_sections_bounded_by_effective_cap (memories : List Synthesis.SynthMem)
    (config : Config) (cat : String) (kept : List Synthesis.SynthMem)
    (hmem : (cat, kept) ∈ Synthesis.deduplicateMemories memories
      (jsOrNat config.max_memories_per_category 15)) :
    kept.length ≤ jsOrNat config.max_memories_per_category 15 ∧
    ((Synthesis.sectionLines cat kept).filter
        (fun line => jsStartsWith line "- ")).length = kept.length ∧
    (1 ≤ config.max_memories_per_category →
      kept.length ≤ config.max_memories_per_category) := by
  obtain ⟨p, -, hp⟩ := List.mem_map.mp hmem
  obtain ⟨hcat, hkept⟩ := Prod.mk.injEq .. ▸ hp
  have hlen : kept.length ≤ jsOrNat config.max_memories_per_category 15 := by
    rw [← hkept]
    exact dedupLoop_length_le _ _ [] []
      (Nat.lt_of_lt_of_le Nat.zero_lt_one (jsOrNat_pos _))
  refine ⟨hlen, ?_, ?_⟩
  · unfold Synthesis.sectionLines
    rw [List.filter_cons_of_neg (by simp [header_not_bullet]),
      List.filter_append, List.filter_map]
    have h1 : List.filter
        ((fun line => jsStartsWith line "- ") ∘ fun m => ("- " ++ m.content)) kept
          = kept :=
      List.filter_eq_self.mpr (fun a _ => bullet_starts a.content)
    rw [h1,
      show List.filter (fun line => jsStartsWith line "- ") [""] = [] from rfl]
    simp
  · intro hone
    have : jsOrNat config.max_memories_per_category 15 =
        config.max_memories_per_category := by
      unfold jsOrNat
      have : config.max_memories_per_category ≠ 0 := Nat.pos_iff_ne_zero.mp hone
      simp [this]
    rw [this] at hlen
    exact hlen

/-- A configuration whose per-category cap is set to 0. -/
def cfgZeroCap : Config := { DEFAULT_CONFIG with max_memories_per_category := 0 }

/-- A session store holding a single one-fact session record. -/
def fsOneFact : Synthesis.FsState :=
  { sessions := [("session_20250101_120000.json",
      some { timestamp := "2025-01-01T12:00:00.000Z"
             working_directory := "/p"
             memories := [{ category := "preferences",
                            content := "likes tabs over spaces" }] })]
    memoryMd := none
    synthesisState := none }

/-- The flattened record of `fsOneFact`. -/
def keptOneFact : List Synthesis.SynthMem :=
  [{ category := "preferences", content := "likes tabs over spaces",
     timestamp := "2025-01-01T12:00:00.000Z", working_directory := "/p",
     source_file := "session_20250101_120000.json" }]

/-- A synthesis wall-clock time. -/
def dateJan2 : Synthesis.JsDate :=
  { year := 2025, month0 := 0, day := 2, hours := 3, minutes := 4, seconds := 5,
    epochMs := 0 }

/-- Counterexample for C3 as stated: with `max_memories_per_category = 0`
the run falls back to the default cap 15, and the rendered document's
Preferences section carries 1 bullet — more than the configured value 0. -/
theorem c3_zero_cap_counterexample :
    cfgZeroCap.max_memories_per_category = 0 ∧
    (Synthesis.synthMain (fun _ _ _ _ _ _ => 0) [] cfgZeroCap fsOneFact
        dateJan2).2.memoryMd =
      some ("# Claude Code Memory\n\n*Last synthesized: 2025-01-02 03:04*\n\n" ++
        "## Preferences\n- likes tabs over spaces\n") ∧
    ((Synthesis.sectionLines "preferences" keptOneFact).filter
        (fun line => jsStartsWith line "- ")).length = 1 := by
  refine ⟨rfl, ?_, by decide⟩
  decide

/-- Witness for the amended C3 at the concrete zero-cap run. -/
theorem c3_sections_bounded_by_effective_cap_witness :
    ("preferences", keptOneFact) ∈
      Synthesis.deduplicateMemories (Synthesis.loadSessionMemories fsOneFact.sessions)
        (jsOrNat cfgZeroCap.max_memories_per_category 15) ∧
    keptOneFact.length ≤ jsOrNat cfgZeroCap.max_memories_per_category 15 ∧
    ((Synthesis.sectionLines "preferences" keptOneFact).filter
        (fun line => jsStartsWith line "- ")).length = keptOneFact.length ∧
    (1 ≤ cfgZeroCap.max_memories_per_category →
      keptOneFact.length ≤ cfgZeroCap.max_memories_per_category) :=
  ⟨by decide,
   (c3_sections_bounded_by_effective_cap
      (Synthesis.loadSessionMemories fsOneFact.sessions) cfgZeroCap
      "preferences" keptOneFact (by decide)).1,
   (c3_sections_bounded_by_effective_cap
      (Synthesis.loadSessionMemories fsOneFact.sessions) cfgZeroCap
      "preferences" keptOneFact (by decide)).2.1,
   (c3_sections_bounded_by_effective_cap
      (Synthesis.loadSessionMemories fsOneFact.sessions) cfgZeroCap
      "preferences" keptOneFact (by decide)).2.2⟩

/-- `listLe` is antisymmetric. -/
theorem listLe_antisymm : ∀ (a b : List Char),
    listLe a b = true → listLe b a = true → a = b
  | [], [], _, _ => rfl
  | [], _ :: _, _, h2 => by cases h2
  | _ :: _, [], h1, _ => by cases h1
  | a :: as, b :: bs, h1, h2 => by
    by_cases hab : a = b
    · subst hab
      rw [listLe, if_pos (by simp)] at h1 h2
      rw [listLe_antisymm as bs h1 h2]
    · rw [listLe, if_neg (by simpa using hab)] at h1
      rw [listLe, if_neg (by simpa using fun e => hab e.symm)] at h2
      exact absurd (of_decide_eq_true h2)
        (Nat.lt_asymm (of_decide_eq_true h1))

/-- Two strings below each other in code-unit order are equal. -/
theorem jsStrLe_antisymm (s t : String)
    (h1 : jsStrLe s t = true) (h2 : jsStrLe t s = true) : s = t := by
  have hd : s.data = t.data := listLe_antisymm s.data t.data h1 h2
  cases s with
  | mk d1 =>
    cases t with
    | mk d2 =>
      have : d1 = d2 := hd
      rw [this]

/-- String boolean equality is symmetric. -/
theorem str_beq_comm (a b : String) : (a == b) = (b == a) := by
  by_cases h : a = b
  · rw [h]
  · have h1 : (a == b) = false := by simpa using h
    have h2 : (b == a) = false := by simpa using fun e => h e.symm
    rw [h1, h2]

/-- The duplicate test of the Synthesis Engine is symmetric. -/
theorem isDupPair_comm (a b : String) :
    Synthesis.isDupPair a b = Synthesis.isDupPair b a := by
  unfold Synthesis.isDupPair
  rw [str_beq_comm, Bool.and_comm (decide (20 < jsLength a)),
    Bool.or_comm (jsIncludes a b)]

/-- Kept facts are pairwise non-duplicates of each other (under the
lowercased-trimmed content comparison of the dedup walk). -/
def keptDistinct (x y : Synthesis.SynthMem) : Prop :=
  Synthesis.isDupPair (jsTrim (jsToLower x.content)) (jsTrim (jsToLower y.content)) = false

/-- `keptDistinct` is symmetric. -/
theorem keptDistinct_symm : Symmetric keptDistinct := by
  intro x y h
  unfold keptDistinct at h ⊢
  rw [isDupPair_comm]
  exact h

/-- The dedup walk preserves pairwise distinctness: provided every already
kept item's content is among the seen contents, the final kept list is
pairwise non-duplicate. -/
theorem dedupLoop_pairwise (maxPerCategory : Nat) (l : List Synthesis.SynthMem) :
    ∀ seen acc,
      (∀ m ∈ acc, jsTrim (jsToLower m.content) ∈ seen) →
      List.Pairwise keptDistinct acc →
      List.Pairwise keptDistinct (Synthesis.dedupLoop maxPerCategory l seen acc) := by
  induction l with
  | nil =>
    intro seen acc _ hpw
    unfold Synthesis.dedupLoop
    exact List.pairwise_reverse.mpr (hpw.imp (fun h => keptDistinct_symm h))
  | cons mem rest ih =>
    intro seen acc hseen hpw
    unfold Synthesis.dedupLoop
    by_cases hdup :
        Synthesis.isDuplicate (jsTrim (jsToLower mem.content)) seen = true
    · simpa [hdup] using ih seen acc hseen hpw
    · have hall : ∀ m ∈ acc, keptDistinct mem m := by
        intro m hm
        unfold keptDistinct
        by_contra hcon
        have htrue : Synthesis.isDupPair (jsTrim (jsToLower mem.content))
            (jsTrim (jsToLower m.content)) = true := by
          cases hres : Synthesis.isDupPair (jsTrim (jsToLower mem.content))
              (jsTrim (jsToLower m.content))
          · exact absurd hres hcon
          · rfl
        exact hdup (by
          show Synthesis.isDuplicate _ seen = true
          unfold Synthesis.isDuplicate
          exact List.any_eq_true.mpr ⟨_, hseen m hm, htrue⟩)
      have hpw2 : List.Pairwise keptDistinct (mem :: acc) :=
        List.pairwise_cons.mpr ⟨hall, hpw⟩
      by_cases hfull : maxPerCategory ≤ acc.length + 1
      · simpa [hdup, hfull] using
          List.pairwise_reverse.mpr (hpw2.imp (fun h => keptDistinct_symm h))
      · have hseen2 : ∀ m ∈ mem :: acc,
            jsTrim (jsToLower m.content) ∈ jsTrim (jsToLower mem.content) :: seen := by
          intro m hm
          rcases List.mem_cons.mp hm with he | hm2
          · subst he; exact List.mem_cons_self _ _
          · exact List.mem_cons_of_mem _ (hseen m hm2)
        simpa [hdup, hfull] using
          ih (jsTrim (jsToLower mem.content) :: seen) (mem :: acc) hseen2 hpw2

/-- C2 (amended): for substring-related contents (both over 20 characters
once lowercased and trimmed), the Synthesis Engine's dedup (a) keeps exactly
the strictly newer fact when the pair are the only facts of their category,
in either input order, and (b) never keeps both facts of such a pair in any
category bucket of any input — but a newer third fact can absorb both, so
"exactly one is kept" fails in general (see the counterexample). -/
theorem c2_substring_pair_dedup (mA mB : Synthesis.SynthMem) (maxPerCategory : Nat)
    (hcat : mA.category = mB.category)
    (hlenA : 20 < jsLength (jsTrim (jsToLower mA.content)))
    (hlenB : 20 < jsLength (jsTrim (jsToLower mB.content)))
    (hinc : (jsIncludes (jsTrim (jsToLower mA.content)) (jsTrim (jsToLower mB.content)) ||
        jsIncludes (jsTrim (jsToLower mB.content)) (jsTrim (jsToLower mA.content))) = true)
    (hle : jsStrLe mB.timestamp mA.timestamp = true)
    (hne : mA.timestamp ≠ mB.timestamp) :
    Synthesis.deduplicateMemories [mA, mB] maxPerCategory = [(mA.category, [mA])] ∧
    Synthesis.deduplicateMemories [mB, mA] maxPerCategory = [(mA.category, [mA])] ∧
    (∀ memories cat kept,
      (cat, kept) ∈ Synthesis.deduplicateMemories memories maxPerCategory →
      mA ∈ kept → mB ∈ kept → False) := by
  have hts : jsStrLe mA.timestamp mB.timestamp = false := by
    cases hv : jsStrLe mA.timestamp mB.timestamp
    · rfl
    · exact absurd (jsStrLe_antisymm _ _ hv hle) hne
  have hdupBA : Synthesis.isDupPair (jsTrim (jsToLower mB.content))
      (jsTrim (jsToLower mA.content)) = true := by
    unfold Synthesis.isDupPair
    rw [decide_eq_true hlenB, decide_eq_true hlenA, Bool.or_comm
      (jsIncludes (jsTrim (jsToLower mB.content)) (jsTrim (jsToLower mA.content))), hinc]
    simp
  have hdupAB : Synthesis.isDupPair (jsTrim (jsToLower mA.content))
      (jsTrim (jsToLower mB.content)) = true := by
    rw [isDupPair_comm]
    exact hdupBA
  have hloop : Synthesis.dedupLoop maxPerCategory [mA, mB] [] [] = [mA] := by
    by_cases hcap : maxPerCategory ≤ 1
    · simp [Synthesis.dedupLoop, Synthesis.isDuplicate, hcap]
    · simp [Synthesis.dedupLoop, Synthesis.isDuplicate, hcap, hdupBA]
  have hgroup1 : Synthesis.groupByCategory [mA, mB] = [(mA.category, [mA, mB])] := by
    show Synthesis.addToCategory mB.category mB
      (Synthesis.addToCategory mA.category mA []) = _
    rw [show Synthesis.addToCategory mA.category mA [] = [(mA.category, [mA])] from rfl]
    unfold Synthesis.addToCategory
    rw [if_pos hcat]
    rfl
  have hgroup2 : Synthesis.groupByCategory [mB, mA] = [(mB.category, [mB, mA])] := by
    show Synthesis.addToCategory mA.category mA
      (Synthesis.addToCategory mB.category mB []) = _
    rw [show Synthesis.addToCategory mB.category mB [] = [(mB.category, [mB])] from rfl]
    unfold Synthesis.addToCategory
    rw [if_pos hcat.symm]
    rfl
  have hsort1 : Synthesis.sortByTimestampDesc [mA, mB] = [mA, mB] := by
    show Synthesis.insertDesc mA (Synthesis.insertDesc mB []) = _
    rw [show Synthesis.insertDesc mB [] = [mB] from rfl]
    unfold Synthesis.insertDesc
    rw [if_pos hle]
  have hsort2 : Synthesis.sortByTimestampDesc [mB, mA] = [mA, mB] := by
    show Synthesis.insertDesc mB (Synthesis.insertDesc mA []) = _
    rw [show Synthesis.insertDesc mA [] = [mA] from rfl]
    unfold Synthesis.insertDesc
    rw [if_neg (by simp [hts])]
    rfl
  refine ⟨?_, ?_, ?_⟩
  · unfold Synthesis.deduplicateMemories
    rw [hgroup1]
    simp only [List.map_cons, List.map_nil]
    rw [hsort1, hloop]
  · unfold Synthesis.deduplicateMemories
    rw [hgroup2]
    simp only [List.map_cons, List.map_nil]
    rw [hsort2, hloop, hcat]
  · intro memories cat kept hkept hA hB
    obtain ⟨p, -, hp⟩ := List.mem_map.mp hkept
    have hkeq : Synthesis.dedupLoop maxPerCategory
        (Synthesis.sortByTimestampDesc p.2) [] [] = kept := congrArg Prod.snd hp
    have hpw : List.Pairwise keptDistinct kept := by
      rw [← hkeq]
      exact dedupLoop_pairwise maxPerCategory _ [] [] (by intro m hm; cases hm)
        List.Pairwise.nil
    have hneAB : mA ≠ mB := fun e => hne (congrArg Synthesis.SynthMem.timestamp e)
    have := hpw.forall keptDistinct_symm hA hB hneAB
    unfold keptDistinct at this
    rw [hdupAB] at this
    cases this

/-- A newer fact whose content strictly contains both pair members. -/
def factSuper : Synthesis.SynthMem :=
  { category := "preferences", content := "i prefer tabs over spaces!! truly",
    timestamp := "2025-03-01T00:00:00.000Z", working_directory := "/p",
    source_file := "session_20250301_000000.json" }

/-- The newer member of the substring-related pair. -/
def factNewerPair : Synthesis.SynthMem :=
  { category := "preferences", content := "i prefer tabs over spaces!!",
    timestamp := "2025-02-01T00:00:00.000Z", working_directory := "/p",
    source_file := "session_20250201_000000.json" }

/-- The older member of the substring-related pair. -/
def factOlderPair : Synthesis.SynthMem :=
  { category := "preferences", content := "i prefer tabs over spaces",
    timestamp := "2025-01-01T00:00:00.000Z", working_directory := "/p",
    source_file := "session_20250101_000000.json" }

/-- Counterexample for C2 as stated: the pair satisfies the claim's
conditions (same category, both lowercased-trimmed contents over 20
characters, one a substring of the other, distinct timestamps), yet in the
presence of a newer superstring fact the dedup keeps *neither* of the two —
not "exactly one, the newer". -/
theorem c2_counterexample_superstring_absorbs_pair :
    Synthesis.deduplicateMemories [factSuper, factNewerPair, factOlderPair] 15 =
      [("preferences", [factSuper])] ∧
    factNewerPair.category = factOlderPair.category ∧
    20 < jsLength (jsTrim (jsToLower factNewerPair.content)) ∧
    20 < jsLength (jsTrim (jsToLower factOlderPair.content)) ∧
    jsIncludes (jsTrim (jsToLower factNewerPair.content))
      (jsTrim (jsToLower factOlderPair.content)) = true ∧
    jsStrLe factOlderPair.timestamp factNewerPair.timestamp = true ∧
    factNewerPair.timestamp ≠ factOlderPair.timestamp ∧
    factNewerPair ∉ [factSuper] ∧ factOlderPair ∉ [factSuper] := by
  decide

/-- Witness for the amended C2 at the concrete tabs-over-spaces pair: alone
in their category, exactly the newer fact survives, in either input order. -/
theorem c2_substring_pair_dedup_witness :
    Synthesis.deduplicateMemories [factNewerPair, factOlderPair] 15 =
      [("preferences", [factNewerPair])] ∧
    Synthesis.deduplicateMemories [factOlderPair, factNewerPair] 15 =
      [("preferences", [factNewerPair])] :=
  ⟨(c2_substring_pair_dedup factNewerPair factOlderPair 15 (by decide) (by decide)
      (by decide) (by decide) (by decide) (by decide)).1,
   (c2_substring_pair_dedup factNewerPair factOlderPair 15 (by decide) (by decide)
      (by decide) (by decide) (by decide) (by decide)).2.1⟩

/-- The facts `save-memory.js`'s heuristic tier pushes before the
working-directory fact (preference facts, then extension fact, then
framework fact). -/
def SaveMemory.preWdFacts (scans : SaveMemory.HeuristicScans)
    (rules : List SaveMemory.PrefRule)
    (conversation : SaveMemory.ReducedConversation) : List Memory :=
  let allText := jsJoin "\n" (conversation.userMessages ++ conversation.assistantMessages)
  SaveMemory.prefFacts rules conversation.userMessages ++
    (match scans.extContent allText with
     | some content => [{ category := "technical_style", content := content }]
     | none => []) ++
    (match scans.fwContent allText with
     | some content => [{ category := "tools_and_workflows", content := content }]
     | none => [])

/-- `save-memory.js`'s heuristic output is the pre-facts, then the
working-directory fact when the directory is truthy, capped at 15. -/
theorem SaveMemory.heuristicExtraction_eq (scans : SaveMemory.HeuristicScans)
    (rules : List SaveMemory.PrefRule)
    (conversation : SaveMemory.ReducedConversation) (config : Config)
    (workingDir : String) :
    SaveMemory.heuristicExtraction scans rules conversation config workingDir =
      (SaveMemory.preWdFacts scans rules conversation ++
        (if workingDir ≠ "" then
          [Memory.mk "ongoing_projects" ("Worked in: " ++ workingDir)]
        else [])).take 15 := by
  unfold SaveMemory.heuristicExtraction SaveMemory.preWdFacts
  simp [List.append_assoc, SaveMemory.MAX_MEMORIES]

/-- The facts the AI-marker variant's heuristic tier pushes before the
working-directory fact. -/
def MarkerHook.preWdFacts (scans : MarkerHook.HeuristicScans)
    (rules : List SaveMemory.PrefRule) (entries : List Entry) : List Memory :=
  let collected := MarkerHook.collectMessages entries
  let allText := jsJoin "\n" (collected.1 ++ collected.2)
  SaveMemory.prefFacts rules collected.1 ++
    (match scans.extContent allText with
     | some content => [{ category := "technical_style", content := content }]
     | none => []) ++
    (match scans.fwContent allText with
     | some content => [{ category := "tools_and_workflows", content := content }]
     | none => [])

/-- The activity fact the AI-marker variant pushes after the
working-directory fact. -/
def MarkerHook.actFacts (scans : MarkerHook.HeuristicScans)
    (entries : List Entry) : List Memory :=
  match scans.activityContent (jsJoin "\n"
      ((MarkerHook.collectMessages entries).1 ++
        (MarkerHook.collectMessages entries).2)) with
  | some content => [{ category := "tools_and_workflows", content := content }]
  | none => []

/-- The AI-marker variant's heuristic memories: empty under the
`min_messages` gate, otherwise pre-facts, working-directory fact (only when
the directory is truthy and differs from `process.cwd()`), activity fact,
capped at 25. -/
theorem MarkerHook.heuristicExtraction_memories_eq
    (scans : MarkerHook.HeuristicScans) (rules : List SaveMemory.PrefRule)
    (basename : String → String) (cwd : String) (entries : List Entry)
    (config : Config) (workingDir : String) :
    (MarkerHook.heuristicExtraction scans rules basename cwd entries config
        workingDir).memories =
      if (MarkerHook.collectMessages entries).1.length +
          (MarkerHook.collectMessages entries).2.length <
            jsOrNat config.min_messages 5 then []
      else
        (MarkerHook.preWdFacts scans rules entries ++
          (if workingDir ≠ "" ∧ workingDir ≠ cwd then
            [Memory.mk "ongoing_projects" ("Worked in: " ++ workingDir)]
          else []) ++ MarkerHook.actFacts scans entries).take 25 := by
  unfold MarkerHook.heuristicExtraction MarkerHook.preWdFacts MarkerHook.actFacts
  by_cases hgate : (MarkerHook.collectMessages entries).1.length +
      (MarkerHook.collectMessages entries).2.length < jsOrNat config.min_messages 5
  · simp [hgate]
  · simp [hgate, List.append_assoc]

/-- An element sitting below the cap survives `take`. -/
theorem mem_take_middle {α : Type} (pre post : List α) (f : α) (n : Nat)
    (h : pre.length + 1 ≤ n) : f ∈ (pre ++ f :: post).take n := by
  rw [List.take_append_eq_append_take]
  refine List.mem_append_right _ ?_
  obtain ⟨k, hk⟩ : ∃ k, n - pre.length = k + 1 := ⟨n - pre.length - 1, by omega⟩
  rw [hk, List.take_succ_cons]
  exact List.mem_cons_self _ _

/-- C6 (amended): when the earlier heuristic facts leave room under the cap
and do not themselves coincide with the working-directory fact, the
`save-memory.js` heuristic tier emits the `ongoing_projects`
working-directory fact iff the working directory is truthy — with *no*
comparison against the process working directory — while the AI-marker
variant emits it iff the message gate passes, the directory is truthy and it
differs from `process.cwd()`. -/
theorem c6_workdir_fact_iff (scans : SaveMemory.HeuristicScans)
    (rules : List SaveMemory.PrefRule)
    (conversation : SaveMemory.ReducedConversation) (config : Config)
    (workingDir : String) (scansM : MarkerHook.HeuristicScans)
    (rulesM : List SaveMemory.PrefRule) (basename : String → String)
    (cwd : String) (entries : List Entry) (configM : Config)
    (workingDirM : String)
    (h1 : (SaveMemory.preWdFacts scans rules conversation).length + 1 ≤ 15)
    (h2 : Memory.mk "ongoing_projects" ("Worked in: " ++ workingDir) ∉
      SaveMemory.preWdFacts scans rules conversation)
    (h1M : (MarkerHook.preWdFacts scansM rulesM entries).length + 1 ≤ 25)
    (h2M : Memory.mk "ongoing_projects" ("Worked in: " ++ workingDirM) ∉
      MarkerHook.preWdFacts scansM rulesM entries) :
    (Memory.mk "ongoing_projects" ("Worked in: " ++ workingDir) ∈
        SaveMemory.heuristicExtraction scans rules conversation config workingDir ↔
      workingDir ≠ "") ∧
    (Memory.mk "ongoing_projects" ("Worked in: " ++ workingDirM) ∈
        (MarkerHook.heuristicExtraction scansM rulesM basename cwd entries
          configM workingDirM).memories ↔
      (jsOrNat configM.min_messages 5 ≤
          (MarkerHook.collectMessages entries).1.length +
            (MarkerHook.collectMessages entries).2.length ∧
        workingDirM ≠ "" ∧ workingDirM ≠ cwd)) := by
  constructor
  · rw [SaveMemory.heuristicExtraction_eq]
    constructor
    · intro hmem
      by_contra hwd
      rw [if_neg (not_not_intro hwd), List.append_nil] at hmem
      exact h2 (List.mem_of_mem_take hmem)
    · intro hwd
      rw [if_pos hwd]
      exact mem_take_middle _ _ _ _ h1
  · rw [MarkerHook.heuristicExtraction_memories_eq]
    by_cases hgate : (MarkerHook.collectMessages entries).1.length +
        (MarkerHook.collectMessages entries).2.length <
          jsOrNat configM.min_messages 5
    · rw [if_pos hgate]
      constructor
      · intro hmem
        cases hmem
      · rintro ⟨hmin, -, -⟩
        omega
    · rw [if_neg hgate]
      constructor
      · intro hmem
        have hmem2 := List.mem_of_mem_take hmem
        rcases List.mem_append.mp hmem2 with hpre | hact
        · rcases List.mem_append.mp hpre with hp | hwd
          · exact absurd hp h2M
          · by_cases hc : workingDirM ≠ "" ∧ workingDirM ≠ cwd
            · exact ⟨Nat.le_of_not_lt hgate, hc.1, hc.2⟩
            · rw [if_neg hc] at hwd
              cases hwd
        · exfalso
          unfold MarkerHook.actFacts at hact
          rcases hax : scansM.activityContent
              (jsJoin "\n" ((MarkerHook.collectMessages entries).1 ++
                (MarkerHook.collectMessages entries).2)) with _ | c
          · rw [hax] at hact
            cases hact
          · rw [hax] at hact
            have heq := List.mem_singleton.mp hact
            simp at heq
      · rintro ⟨hmin, hne1, hne2⟩
        rw [if_pos ⟨hne1, hne2⟩]
        have hasc : MarkerHook.preWdFacts scansM rulesM entries ++
            [Memory.mk "ongoing_projects" ("Worked in: " ++ workingDirM)] ++
              MarkerHook.actFacts scansM entries =
            MarkerHook.preWdFacts scansM rulesM entries ++
              Memory.mk "ongoing_projects" ("Worked in: " ++ workingDirM) ::
                MarkerHook.actFacts scansM entries := by
          simp
        rw [hasc]
        exact mem_take_middle _ _ _ _ h1M

/-- Scan subroutines that detect nothing (as on an empty conversation). -/
def emptyScans : SaveMemory.HeuristicScans :=
  { extContent := fun _ => none, fwContent := fun _ => none }

/-- Marker-variant scan subroutines that detect nothing. -/
def emptyScansM : MarkerHook.HeuristicScans :=
  { extContent := fun _ => none, fwContent := fun _ => none,
    activityContent := fun _ => none }

/-- An empty reduced conversation. -/
def emptyConversation : SaveMemory.ReducedConversation :=
  { text := "", messageCount := 0, userMessages := [], assistantMessages := [] }

/-- A configuration whose message gate is 1. -/
def cfgMin1 : Config := { DEFAULT_CONFIG with min_messages := 1 }

/-- A one-user-message transcript for the marker variant. -/
def smallEntries : List Entry :=
  [{ type := "user", isMeta := false,
     message := some { role := "user",
                       content := some (.str "hello there friend") } }]

/-- Counterexample for C6 as stated: in a `save-memory.js` heuristic run
whose working directory equals the pipeline's own invocation directory
(`/home/u/proj` for both), the `ongoing_projects` working-directory fact is
still emitted — the source pushes it whenever `workingDir` is truthy and
never consults `process.cwd()` — whereas the claim demands it only when the
directories differ.  The AI-marker variant, run at the same equal
directories, indeed does not emit it. -/
theorem c6_counterexample_equal_dirs_still_emitted :
    Memory.mk "ongoing_projects" "Worked in: /home/u/proj" ∈
      SaveMemory.heuristicExtraction emptyScans [] emptyConversation
        DEFAULT_CONFIG "/home/u/proj" ∧
    Memory.mk "ongoing_projects" "Worked in: /home/u/proj" ∉
      (MarkerHook.heuristicExtraction emptyScansM [] (fun s => s) "/home/u/proj"
        smallEntries cfgMin1 "/home/u/proj").memories := by
  decide

/-- Witness for the amended C6 at concrete runs (empty scans, no rules,
`process.cwd() = /other` for the marker variant). -/
theorem c6_workdir_fact_iff_witness :
    (Memory.mk "ongoing_projects" "Worked in: /home/u/proj" ∈
        SaveMemory.heuristicExtraction emptyScans [] emptyConversation
          DEFAULT_CONFIG "/home/u/proj" ↔
      ("/home/u/proj" : String) ≠ "") ∧
    (Memory.mk "ongoing_projects" "Worked in: /home/u/proj" ∈
        (MarkerHook.heuristicExtraction emptyScansM [] (fun s => s) "/other"
          smallEntries cfgMin1 "/home/u/proj").memories ↔
      (jsOrNat cfgMin1.min_messages 5 ≤
          (MarkerHook.collectMessages smallEntries).1.length +
            (MarkerHook.collectMessages smallEntries).2.length ∧
        ("/home/u/proj" : String) ≠ "" ∧
        ("/home/u/proj" : String) ≠ "/other")) :=
  c6_workdir_fact_iff emptyScans [] emptyConversation DEFAULT_CONFIG
    "/home/u/proj" emptyScansM [] (fun s => s) "/other" smallEntries cfgMin1
    "/home/u/proj" (by decide) (by decide) (by decide) (by decide)

/-- Sum of the byte lengths of a message list (the `size` accumulator of the
budget loop, which counts no separators). -/
def sumBytes : List String → Nat
  | [] => 0
  | s :: rest => byteLen s + sumBytes rest

theorem sumBytes_append (l1 l2 : List String) :
    sumBytes (l1 ++ l2) = sumBytes l1 + sumBytes l2 := by
  induction l1 with
  | nil => simp [sumBytes]
  | cons s rest ih => simp [sumBytes, ih, Nat.add_assoc]

theorem sumBytes_reverse (l : List String) : sumBytes l.reverse = sumBytes l := by
  induction l with
  | nil => rfl
  | cons s rest ih =>
    simp [sumBytes, List.reverse_cons, sumBytes_append, ih, Nat.add_comm]

/-- The budget loop keeps the running sum within the budget. -/
theorem suffixLoop_sum_le : ∀ (r : List String) (size : Nat),
    size ≤ SaveMemory.MAX_CONVERSATION_BYTES →
    size + sumBytes (SaveMemory.suffixLoop size r) ≤
      SaveMemory.MAX_CONVERSATION_BYTES
  | [], size, h => by simpa [SaveMemory.suffixLoop, sumBytes] using h
  | m :: rest, size, h => by
    rw [SaveMemory.suffixLoop]
    by_cases hover : SaveMemory.MAX_CONVERSATION_BYTES < size + byteLen m
    · simpa [hover, sumBytes] using h
    · have hle : size + byteLen m ≤ SaveMemory.MAX_CONVERSATION_BYTES :=
        Nat.le_of_not_lt hover
      have := suffixLoop_sum_le rest (size + byteLen m) hle
      simpa [hover, sumBytes, Nat.add_assoc] using this

/-- The budget loop returns either the whole list, or a proper prefix that
stops exactly at the first message that would overflow the budget. -/
theorem suffixLoop_spec : ∀ (r : List String) (size : Nat),
    SaveMemory.suffixLoop size r = r ∨
    ∃ pre m post, r = pre ++ m :: post ∧ SaveMemory.suffixLoop size r = pre ∧
      SaveMemory.MAX_CONVERSATION_BYTES < size + sumBytes pre + byteLen m
  | [], _ => Or.inl rfl
  | m :: rest, size => by
    rw [SaveMemory.suffixLoop]
    by_cases hover : SaveMemory.MAX_CONVERSATION_BYTES < size + byteLen m
    · refine Or.inr ⟨[], m, rest, rfl, by simp [hover], ?_⟩
      simpa [sumBytes] using hover
    · rcases suffixLoop_spec rest (size + byteLen m) with hall | ⟨pre, m2, post, hr, hsl, hgt⟩
      · exact Or.inl (by simp [hover, hall])
      · refine Or.inr ⟨m :: pre, m2, post, by rw [hr]; rfl, by simp [hover, hsl], ?_⟩
        have : size + byteLen m + sumBytes pre + byteLen m2 =
            size + sumBytes (m :: pre) + byteLen m2 := by
          simp [sumBytes, Nat.add_assoc]
        exact this ▸ hgt

/-- `takeSuffixBudget` keeps a suffix whose message byte lengths sum to at
most the budget, and it is maximal: either nothing is dropped, or the last
message dropped would push the sum over the budget. -/
theorem takeSuffixBudget_spec (msgs : List String) :
    ∃ dropped, msgs = dropped ++ SaveMemory.takeSuffixBudget msgs ∧
      sumBytes (SaveMemory.takeSuffixBudget msgs) ≤
        SaveMemory.MAX_CONVERSATION_BYTES ∧
      (dropped = [] ∨ ∃ pre m, dropped = pre ++ [m] ∧
        SaveMemory.MAX_CONVERSATION_BYTES <
          byteLen m + sumBytes (SaveMemory.takeSuffixBudget msgs)) := by
  have hsum : sumBytes (SaveMemory.takeSuffixBudget msgs) ≤
      SaveMemory.MAX_CONVERSATION_BYTES := by
    have := suffixLoop_sum_le msgs.reverse 0 (by simp [SaveMemory.MAX_CONVERSATION_BYTES])
    simpa [SaveMemory.takeSuffixBudget, sumBytes_reverse] using this
  rcases suffixLoop_spec msgs.reverse 0 with hall | ⟨pre, m, post, hr, hsl, hgt⟩
  · refine ⟨[], ?_, hsum, Or.inl rfl⟩
    simp [SaveMemory.takeSuffixBudget, hall]
  · have hkept : SaveMemory.takeSuffixBudget msgs = pre.reverse := by
      rw [SaveMemory.takeSuffixBudget, hsl]
    refine ⟨post.reverse ++ [m], ?_, hsum, Or.inr ⟨post.reverse, m, rfl, ?_⟩⟩
    · rw [hkept]
      have hmsgs : msgs = (pre ++ m :: post).reverse := by
        rw [← hr, List.reverse_reverse]
      rw [hmsgs]
      simp
    · rw [hkept, sumBytes_reverse]
      omega

/-- The reducer's output text, in every case: the interleaved `ROLE:` lines
joined with blank lines, trimmed to the budget suffix when the serialized
text overflows the byte budget. -/
theorem extract_text_eq (transcript : List (Option Entry)) (config : Config) :
    (SaveMemory.extractConversationText transcript config).text =
      (if SaveMemory.MAX_CONVERSATION_BYTES < byteLen (jsJoin "\n\n"
          (SaveMemory.interleaveMsgs
            (SaveMemory.extractConversationText transcript config).userMessages
            (SaveMemory.extractConversationText transcript config).assistantMessages)) then
        jsJoin "\n\n" (SaveMemory.takeSuffixBudget (SaveMemory.interleaveMsgs
          (SaveMemory.extractConversationText transcript config).userMessages
          (SaveMemory.extractConversationText transcript config).assistantMessages))
      else jsJoin "\n\n" (SaveMemory.interleaveMsgs
        (SaveMemory.extractConversationText transcript config).userMessages
        (SaveMemory.extractConversationText transcript config).assistantMessages)) := by
  unfold SaveMemory.extractConversationText
  by_cases hgate : (SaveMemory.collectLoop transcript 0 [] []).1.length +
      (SaveMemory.collectLoop transcript 0 [] []).2.length <
        jsOrNat config.min_messages 5
  · simp [hgate, SaveMemory.interleaveMsgs, jsJoin, byteLen, utf8LenL,
      SaveMemory.MAX_CONVERSATION_BYTES]
  · by_cases htrig : SaveMemory.MAX_CONVERSATION_BYTES < byteLen (jsJoin "\n\n"
        (SaveMemory.interleaveMsgs (SaveMemory.collectLoop transcript 0 [] []).1
          (SaveMemory.collectLoop transcript 0 [] []).2))
    · simp [hgate, htrig]
    · simp [hgate, htrig]

/-- C1 (amended): when the serialized `ROLE:` lines overflow the 50,000-byte
budget, the reducer's output is the suffix kept by the backwards budget
loop: a suffix of the interleaved lines whose message byte lengths *sum* to
at most 50,000 (separator bytes are not counted by the loop, so the joined
output itself may exceed the budget — see the counterexample), maximal in
that the last dropped line would push that sum over the budget. -/
theorem c1_budget_suffix (transcript : List (Option Entry)) (config : Config)
    (htrig : SaveMemory.MAX_CONVERSATION_BYTES < byteLen (jsJoin "\n\n"
      (SaveMemory.interleaveMsgs
        (SaveMemory.extractConversationText transcript config).userMessages
        (SaveMemory.extractConversationText transcript config).assistantMessages))) :
    (SaveMemory.extractConversationText transcript config).text =
      jsJoin "\n\n" (SaveMemory.takeSuffixBudget (SaveMemory.interleaveMsgs
        (SaveMemory.extractConversationText transcript config).userMessages
        (SaveMemory.extractConversationText transcript config).assistantMessages)) ∧
    ∃ dropped,
      SaveMemory.interleaveMsgs
          (SaveMemory.extractConversationText transcript config).userMessages
          (SaveMemory.extractConversationText transcript config).assistantMessages =
        dropped ++ SaveMemory.takeSuffixBudget (SaveMemory.interleaveMsgs
          (SaveMemory.extractConversationText transcript config).userMessages
          (SaveMemory.extractConversationText transcript config).assistantMessages) ∧
      sumBytes (SaveMemory.takeSuffixBudget (SaveMemory.interleaveMsgs
        (SaveMemory.extractConversationText transcript config).userMessages
        (SaveMemory.extractConversationText transcript config).assistantMessages)) ≤
          SaveMemory.MAX_CONVERSATION_BYTES ∧
      (dropped = [] ∨ ∃ pre m, dropped = pre ++ [m] ∧
        SaveMemory.MAX_CONVERSATION_BYTES < byteLen m +
          sumBytes (SaveMemory.takeSuffixBudget (SaveMemory.interleaveMsgs
            (SaveMemory.extractConversationText transcript config).userMessages
            (SaveMemory.extractConversationText transcript config).assistantMessages))) := by
  refine ⟨?_, takeSuffixBudget_spec _⟩
  rw [extract_text_eq transcript config, if_pos htrig]

/-- The tagged user lines appear in the interleaved line list in their
original relative order. -/
theorem interleave_sublist_user : ∀ (us as : List String),
    (us.map (fun u => "USER: " ++ u)).Sublist (SaveMemory.interleaveMsgs us as)
  | [], _ => List.nil_sublist _
  | u :: us, [] => by
    rw [List.map_cons, SaveMemory.interleaveMsgs]
    exact List.Sublist.cons₂ _ (interleave_sublist_user us [])
  | u :: us, a :: as => by
    rw [List.map_cons, SaveMemory.interleaveMsgs]
    exact List.Sublist.cons₂ _ (List.Sublist.cons _ (interleave_sublist_user us as))

/-- The tagged assistant lines appear in the interleaved line list in their
original relative order. -/
theorem interleave_sublist_assistant : ∀ (us as : List String),
    (as.map (fun a => "ASSISTANT: " ++ a)).Sublist (SaveMemory.interleaveMsgs us as)
  | [], as => by
    rw [SaveMemory.interleaveMsgs]
  | _ :: _, [] => List.nil_sublist _
  | u :: us, a :: as => by
    rw [List.map_cons, SaveMemory.interleaveMsgs]
    exact List.Sublist.cons _ (List.Sublist.cons₂ _ (interleave_sublist_assistant us as))

/-- C5 (amended): when the serialized text stays within the byte budget, the
reducer's output is the retained lines interleaved *by index* — the i-th
`USER:` line followed by the i-th `ASSISTANT:` line — so user lines keep
their relative order and assistant lines keep theirs, but the combined
sequence reproduces the transcript order only when roles strictly alternate
starting with a user entry (the counterexample shows a reordering). -/
theorem c5_lines_interleaved_by_index (transcript : List (Option Entry))
    (config : Config)
    (hfit : ¬ SaveMemory.MAX_CONVERSATION_BYTES < byteLen (jsJoin "\n\n"
      (SaveMemory.interleaveMsgs
        (SaveMemory.extractConversationText transcript config).userMessages
        (SaveMemory.extractConversationText transcript config).assistantMessages))) :
    (SaveMemory.extractConversationText transcript config).text =
      jsJoin "\n\n" (SaveMemory.interleaveMsgs
        (SaveMemory.extractConversationText transcript config).userMessages
        (SaveMemory.extractConversationText transcript config).assistantMessages) ∧
    ((SaveMemory.extractConversationText transcript config).userMessages.map
        (fun u => "USER: " ++ u)).Sublist
      (SaveMemory.interleaveMsgs
        (SaveMemory.extractConversationText transcript config).userMessages
        (SaveMemory.extractConversationText transcript config).assistantMessages) ∧
    ((SaveMemory.extractConversationText transcript config).assistantMessages.map
        (fun a => "ASSISTANT: " ++ a)).Sublist
      (SaveMemory.interleaveMsgs
        (SaveMemory.extractConversationText transcript config).userMessages
        (SaveMemory.extractConversationText transcript config).assistantMessages) :=
  ⟨by rw [extract_text_eq transcript config, if_neg hfit],
   interleave_sublist_user _ _, interleave_sublist_assistant _ _⟩

/-- A transcript with two consecutive user entries before an assistant
entry. -/
def smallTranscript : List (Option Entry) :=
  [some { type := "user", isMeta := false,
          message := some { role := "user",
                            content := some (.str "hello one!!") } },
   some { type := "user", isMeta := false,
          message := some { role := "user",
                            content := some (.str "hello two!!") } },
   some { type := "assistant", isMeta := false,
          message := some { role := "assistant",
                            content := some (.str "reply here!!") } }]

/-- Counterexample for C5 as stated: the transcript order of the retained
entries is `hello one!!`, `hello two!!`, `reply here!!`, but the reducer
interleaves by index and outputs the assistant line *between* the two user
lines — not in original transcript order. -/
theorem c5_counterexample_transcript_order_lost :
    (SaveMemory.extractConversationText smallTranscript cfgMin1).text =
      "USER: hello one!!\n\nASSISTANT: reply here!!\n\nUSER: hello two!!" ∧
    (SaveMemory.extractConversationText smallTranscript cfgMin1).text ≠
      "USER: hello one!!\n\nUSER: hello two!!\n\nASSISTANT: reply here!!" := by
  decide

/-- Witness for the amended C5 at the two-users-then-assistant transcript. -/
theorem c5_lines_interleaved_by_index_witness :
    (¬ SaveMemory.MAX_CONVERSATION_BYTES < byteLen (jsJoin "\n\n"
      (SaveMemory.interleaveMsgs
        (SaveMemory.extractConversationText smallTranscript cfgMin1).userMessages
        (SaveMemory.extractConversationText smallTranscript cfgMin1).assistantMessages))) ∧
    (SaveMemory.extractConversationText smallTranscript cfgMin1).text =
      jsJoin "\n\n" (SaveMemory.interleaveMsgs
        (SaveMemory.extractConversationText smallTranscript cfgMin1).userMessages
        (SaveMemory.extractConversationText smallTranscript cfgMin1).assistantMessages) :=
  ⟨by decide,
   (c5_lines_interleaved_by_index smallTranscript cfgMin1 (by decide)).1⟩

theorem str_data_append (s t : String) : (s ++ t).data = s.data ++ t.data := rfl

theorem utf8LenL_append (l1 l2 : List Char) :
    utf8LenL (l1 ++ l2) = utf8LenL l1 + utf8LenL l2 := by
  induction l1 with
  | nil => simp [utf8LenL]
  | cons c cs ih => simp [utf8LenL, ih, Nat.add_assoc]

theorem byteLen_append (s t : String) :
    byteLen (s ++ t) = byteLen s + byteLen t := by
  show utf8LenL ((s ++ t).data) = _
  rw [str_data_append, utf8LenL_append]
  rfl

theorem utf8LenL_replicate (n : Nat) (c : Char) :
    utf8LenL (List.replicate n c) = n * charBytes c := by
  induction n with
  | zero => simp [List.replicate, utf8LenL]
  | succ k ih => simp [List.replicate, utf8LenL, ih, Nat.succ_mul, Nat.add_comm]

/-- Prefix containment carries membership. -/
theorem isPrefixL_mem : ∀ (p l : List Char), isPrefixL p l = true →
    ∀ c ∈ p, c ∈ l
  | [], _, _, _, hc => absurd hc (List.not_mem_nil _)
  | _ :: _, [], h, _, _ => by cases h
  | a :: as, b :: bs, h, c, hc => by
    rw [isPrefixL, Bool.and_eq_true, beq_iff_eq] at h
    rcases List.mem_cons.mp hc with he | hm
    · exact he ▸ h.1 ▸ List.mem_cons_self _ _
    · exact List.mem_cons_of_mem _ (isPrefixL_mem as bs h.2 c hm)

/-- Substring containment carries membership. -/
theorem isInfixL_mem : ∀ (p l : List Char), isInfixL p l = true → ∀ c ∈ p, c ∈ l
  | p, [], h, c, hc => by
    cases p with
    | nil => exact absurd hc (List.not_mem_nil _)
    | cons a as => exact absurd h (by simp [isInfixL, isPrefixL])
  | p, b :: bs, h, c, hc => by
    rw [isInfixL, Bool.or_eq_true] at h
    rcases h with hpre | hinf
    · exact isPrefixL_mem p (b :: bs) hpre c hc
    · exact List.mem_cons_of_mem _ (isInfixL_mem p bs hinf c hc)

/-- A pattern holding a character other than `c` never occurs inside a pure
`c`-repetition. -/
theorem not_includes_replicate (n : Nat) (c : Char) (pat : String) (x : Char)
    (hx : x ∈ pat.data) (hne : x ≠ c) :
    jsIncludes (String.mk (List.replicate n c)) pat = false := by
  cases h : jsIncludes (String.mk (List.replicate n c)) pat
  · rfl
  · exact absurd (List.eq_of_mem_replicate
      (isInfixL_mem pat.data (List.replicate n c) h x hx)) hne

/-- Trimming a repetition of a non-space character is the identity. -/
theorem trim_replicate (n : Nat) (c : Char) (h : isJsSpace c = false) :
    jsTrim (String.mk (List.replicate n c)) = String.mk (List.replicate n c) := by
  unfold jsTrim
  rw [show (String.mk (List.replicate n c)).data = List.replicate n c from rfl]
  rw [List.dropWhile_replicate, if_neg (by simp [h]), List.reverse_replicate,
    List.dropWhile_replicate, if_neg (by simp [h]), List.reverse_replicate]

/-- The 24,994-character user message of the over-budget transcript. -/
def bigA : String := String.mk (List.replicate 24994 'a')

/-- A user entry carrying `bigA`. -/
def bigEntry : Entry :=
  { type := "user", isMeta := false,
    message := some { role := "user", content := some (.str bigA) } }

/-- Three such entries: 74,982 retained characters in total. -/
def bigTranscript : List (Option Entry) := [some bigEntry, some bigEntry, some bigEntry]

theorem byteLen_bigA : byteLen bigA = 24994 := by
  show utf8LenL (List.replicate 24994 'a') = 24994
  rw [utf8LenL_replicate, show charBytes 'a' = 1 from by decide, Nat.mul_one]

theorem jsLength_bigA : jsLength bigA = 24994 := by
  show (List.replicate 24994 'a').length = 24994
  rw [List.length_replicate]

theorem bigA_ne_empty : bigA ≠ "" := by
  intro h
  have h2 : (List.replicate 24994 'a').length = ([] : List Char).length :=
    congrArg List.length ((str_eq_empty_iff bigA).mp h)
  rw [List.length_replicate] at h2
  cases h2

theorem extractHumanText_bigA : SaveMemory.extractHumanText (.str bigA) = bigA := by
  show (if (jsIncludes bigA "<command-name>" || jsIncludes bigA "<command-message>" ||
      jsIncludes bigA "<local-command") = true then "" else jsTrim bigA) = bigA
  rw [show jsIncludes bigA "<command-name>" = false from
      not_includes_replicate 24994 'a' _ '<' (by decide) (by decide),
    show jsIncludes bigA "<command-message>" = false from
      not_includes_replicate 24994 'a' _ '<' (by decide) (by decide),
    show jsIncludes bigA "<local-command" = false from
      not_includes_replicate 24994 'a' _ '<' (by decide) (by decide)]
  simp only [Bool.or_false, Bool.false_or, if_false]
  exact trim_replicate 24994 'a' (by decide)

theorem collectLoop_bigTranscript :
    SaveMemory.collectLoop bigTranscript 0 [] [] = ([bigA, bigA, bigA], []) := by
  have h5 : 5 < jsLength bigA := by
    rw [jsLength_bigA]
    norm_num
  have htr : Content.truthy (.str bigA) = true := by
    show (!bigA.data.isEmpty) = true
    rw [show bigA.data.isEmpty = false from rfl]
    rfl
  simp [bigTranscript, bigEntry, SaveMemory.collectLoop,
    SaveMemory.MAX_CONVERSATION_BYTES, htr, extractHumanText_bigA,
    bigA_ne_empty, h5, jsLength_bigA]

theorem interleave_big :
    SaveMemory.interleaveMsgs [bigA, bigA, bigA] [] =
      ["USER: " ++ bigA, "USER: " ++ bigA, "USER: " ++ bigA] := by
  simp [SaveMemory.interleaveMsgs]

theorem byteLen_lineU : byteLen ("USER: " ++ bigA) = 25000 := by
  rw [byteLen_append, byteLen_bigA, show byteLen "USER: " = 6 from by decide]

theorem byteLen_join3 :
    byteLen (jsJoin "\n\n"
      ["USER: " ++ bigA, "USER: " ++ bigA, "USER: " ++ bigA]) = 75004 := by
  simp [jsJoin, byteLen_append, byteLen_bigA,
    show byteLen "USER: " = 6 from by decide,
    show byteLen "\n\n" = 2 from by decide]

theorem takeSuffix_big :
    SaveMemory.takeSuffixBudget
        ["USER: " ++ bigA, "USER: " ++ bigA, "USER: " ++ bigA] =
      ["USER: " ++ bigA, "USER: " ++ bigA] := by
  unfold SaveMemory.takeSuffixBudget
  simp [SaveMemory.suffixLoop, byteLen_lineU, SaveMemory.MAX_CONVERSATION_BYTES]

theorem extract_big_eq :
    SaveMemory.extractConversationText bigTranscript cfgMin1 =
      { text := jsJoin "\n\n" ["USER: " ++ bigA, "USER: " ++ bigA],
        messageCount := 3, userMessages := [bigA, bigA, bigA],
        assistantMessages := [] } := by
  unfold SaveMemory.extractConversationText
  rw [collectLoop_bigTranscript]
  simp [cfgMin1, DEFAULT_CONFIG, jsOrNat, interleave_big, byteLen_join3,
    takeSuffix_big, SaveMemory.MAX_CONVERSATION_BYTES]

theorem c1_trigger_big :
    SaveMemory.MAX_CONVERSATION_BYTES < byteLen (jsJoin "\n\n"
      (SaveMemory.interleaveMsgs
        (SaveMemory.extractConversationText bigTranscript cfgMin1).userMessages
        (SaveMemory.extractConversationText bigTranscript cfgMin1).assistantMessages)) := by
  rw [extract_big_eq]
  show SaveMemory.MAX_CONVERSATION_BYTES <
    byteLen (jsJoin "\n\n" (SaveMemory.interleaveMsgs [bigA, bigA, bigA] []))
  rw [interleave_big, byteLen_join3]
  norm_num [SaveMemory.MAX_CONVERSATION_BYTES]

/-- Counterexample for C1 as stated: on a transcript of three 24,994-byte
user messages the serialized lines overflow the budget (75,004 bytes), and
the reducer keeps the two most recent lines — but their joined output is
50,002 bytes, *more* than the 50,000-byte budget, because the budget loop
sums message sizes without the `\n\n` separators.  No suffix that "fits
within the 50,000-byte budget" can serialize to more than 50,000 bytes, so
the output is not such a suffix. -/
theorem c1_counterexample_output_exceeds_budget :
    SaveMemory.MAX_CONVERSATION_BYTES < byteLen (jsJoin "\n\n"
      (SaveMemory.interleaveMsgs
        (SaveMemory.extractConversationText bigTranscript cfgMin1).userMessages
        (SaveMemory.extractConversationText bigTranscript cfgMin1).assistantMessages)) ∧
    byteLen (SaveMemory.extractConversationText bigTranscript cfgMin1).text = 50002 ∧
    SaveMemory.MAX_CONVERSATION_BYTES < 50002 := by
  refine ⟨c1_trigger_big, ?_, by norm_num [SaveMemory.MAX_CONVERSATION_BYTES]⟩
  rw [extract_big_eq]
  show byteLen (jsJoin "\n\n" ["USER: " ++ bigA, "USER: " ++ bigA]) = 50002
  simp [jsJoin, byteLen_append, byteLen_bigA,
    show byteLen "USER: " = 6 from by decide,
    show byteLen "\n\n" = 2 from by decide]

/-- Witness for the amended C1 at the over-budget three-message transcript. -/
theorem c1_budget_suffix_witness :
    SaveMemory.MAX_CONVERSATION_BYTES < byteLen (jsJoin "\n\n"
      (SaveMemory.interleaveMsgs
        (SaveMemory.extractConversationText bigTranscript cfgMin1).userMessages
        (SaveMemory.extractConversationText bigTranscript cfgMin1).assistantMessages)) ∧
    (SaveMemory.extractConversationText bigTranscript cfgMin1).text =
      jsJoin "\n\n" (SaveMemory.takeSuffixBudget (SaveMemory.interleaveMsgs
        (SaveMemory.extractConversationText bigTranscript cfgMin1).userMessages
        (SaveMemory.extractConversationText bigTranscript cfgMin1).assistantMessages)) :=
  ⟨c1_trigger_big, (c1_budget_suffix bigTranscript cfgMin1 c1_trigger_big).1⟩
